import Mathlib

/-!
# redis_exporter: start-up and service composition (`main.go`)

A shallow embedding of `main.go`.  The process is modelled by explicit state
passing: `main` threads a `State` (filesystem, the process-wide default
registry, the process-wide default serve mux, and the trace of observable
actions) and ends in an `Exit`.

What `main.go` takes from outside is a parameter, collected in `World`: the
build variables, the functions of package `exporter`, and the outcome of the
fallible library calls (`Registry.Register`, `Server.Serve`).  The flags are
taken as `flag.Parse` leaves them: a value for each flag that is given.

Modelling choices:
* strings are Unicode strings; `strings.Split` cuts on a separator string;
* `ServeMux.Handle` panics on an empty pattern and on a repeated pattern;
  a mux matches a path exactly or by a subtree pattern, longest first;
* the filesystem knows which paths exist, which may be removed and where a
  socket may be created; binding a path that names a file creates the socket
  file, an abstract address (empty, or beginning with `@`) names no file;
  when `Serve` returns it has closed the listener, which unlinks the socket
  file, so only a run that is still serving, or was killed while serving,
  leaves its socket file behind;
* `log.Fatal` ends the process with status 1, a panic with status 2, a return
  from `main` with status 0.
-/

namespace RedisExporter

/-! ## Strings -/

/-- Whether `s` begins with `p` (Go `strings.HasPrefix` on character lists). -/
def startsWith : List Char → List Char → Bool
  | [], _ => true
  | _ :: _, [] => false
  | p :: ps, c :: cs => p == c && startsWith ps cs

/-- The scanning loop of Go `strings.Split` for a non-empty separator: `skip`
counts the characters of a matched separator still to be dropped, `cur` is the
current piece, reversed. -/
def splitGo (sep : List Char) : List Char → Nat → List Char → List (List Char)
  | [], _, cur => [cur.reverse]
  | _ :: rest, skip + 1, cur => splitGo sep rest skip cur
  | c :: rest, 0, cur =>
    if startsWith sep (c :: rest) then
      cur.reverse :: splitGo sep rest (sep.length - 1) []
    else
      splitGo sep rest 0 (c :: cur)

/-- Go `strings.Split(s, sep)`: with an empty separator the string is exploded
into its characters, otherwise it is cut at every occurrence of `sep`. -/
def stringsSplit (s sep : String) : List String :=
  if sep.toList = [] then s.toList.map (fun c => String.mk [c])
  else (splitGo sep.toList s.toList 0 []).map String.mk

/-! ## Configuration: flags and environment -/

/-- The process environment, as seen by `os.LookupEnv`. -/
abbrev Env := String → Option String

/-- Source `getEnv`: the value of `key` when present, else `defaultVal`. -/
def getEnv (env : Env) (key : String) (defaultVal : String) : String :=
  match env key with
  | some envVal => envVal
  | none => defaultVal

/-- The flags given on the command line, as `flag.Parse` sets them: `none`
for a flag that is not given. -/
structure CommandLine where
  redisAddr : Option String
  redisFile : Option String
  redisPassword : Option String
  redisAlias : Option String
  namespace_ : Option String
  checkKeys : Option String
  separator : Option String
  listenAddress : Option String
  metricPath : Option String
  isDebug : Option Bool
  logFormat : Option String
  showVersion : Option Bool
  useCfBindings : Option Bool
  redisMetricsOnly : Option Bool

/-- The values of the flag variables after `flag.Parse`. -/
structure Config where
  redisAddr : String
  redisFile : String
  redisPassword : String
  redisAlias : String
  namespace_ : String
  checkKeys : String
  separator : String
  listenAddress : String
  metricPath : String
  isDebug : Bool
  logFormat : String
  showVersion : Bool
  useCfBindings : Bool
  redisMetricsOnly : Bool

/-- The flag declarations of `main.go` (lines 17-30) followed by `flag.Parse`:
each variable holds the flag's value when the flag is given, else the default
the flag was declared with. -/
def flagParse (env : Env) (cl : CommandLine) : Config where
  redisAddr := cl.redisAddr.getD (getEnv env "REDIS_ADDR" "")
  redisFile := cl.redisFile.getD (getEnv env "REDIS_FILE" "")
  redisPassword := cl.redisPassword.getD (getEnv env "REDIS_PASSWORD" "")
  redisAlias := cl.redisAlias.getD (getEnv env "REDIS_ALIAS" "")
  namespace_ := cl.namespace_.getD "redis"
  checkKeys := cl.checkKeys.getD ""
  separator := cl.separator.getD ","
  listenAddress := cl.listenAddress.getD "/dev/shm/redis_exporter.sock"
  metricPath := cl.metricPath.getD "/metrics"
  isDebug := cl.isDebug.getD false
  logFormat := cl.logFormat.getD "txt"
  showVersion := cl.showVersion.getD false
  useCfBindings := cl.useCfBindings.getD false
  redisMetricsOnly := cl.redisMetricsOnly.getD false

/-- The options of the configuration surface, one per flag variable. -/
inductive Opt
  | redisAddr | redisFile | redisPassword | redisAlias | namespace_ | checkKeys
  | separator | listenAddress | metricPath | isDebug | logFormat | showVersion
  | useCfBindings | redisMetricsOnly
  deriving DecidableEq, Repr

/-- A flag value: a string flag or a boolean flag. -/
inductive FlagValue
  | str (s : String)
  | bool (b : Bool)
  deriving DecidableEq, Repr

/-- The value given for an option on the command line, if any. -/
def CommandLine.get (cl : CommandLine) : Opt → Option FlagValue
  | .redisAddr => cl.redisAddr.map .str
  | .redisFile => cl.redisFile.map .str
  | .redisPassword => cl.redisPassword.map .str
  | .redisAlias => cl.redisAlias.map .str
  | .namespace_ => cl.namespace_.map .str
  | .checkKeys => cl.checkKeys.map .str
  | .separator => cl.separator.map .str
  | .listenAddress => cl.listenAddress.map .str
  | .metricPath => cl.metricPath.map .str
  | .isDebug => cl.isDebug.map .bool
  | .logFormat => cl.logFormat.map .str
  | .showVersion => cl.showVersion.map .bool
  | .useCfBindings => cl.useCfBindings.map .bool
  | .redisMetricsOnly => cl.redisMetricsOnly.map .bool

/-- The resolved value of an option. -/
def Config.get (c : Config) : Opt → FlagValue
  | .redisAddr => .str c.redisAddr
  | .redisFile => .str c.redisFile
  | .redisPassword => .str c.redisPassword
  | .redisAlias => .str c.redisAlias
  | .namespace_ => .str c.namespace_
  | .checkKeys => .str c.checkKeys
  | .separator => .str c.separator
  | .listenAddress => .str c.listenAddress
  | .metricPath => .str c.metricPath
  | .isDebug => .bool c.isDebug
  | .logFormat => .str c.logFormat
  | .showVersion => .bool c.showVersion
  | .useCfBindings => .bool c.useCfBindings
  | .redisMetricsOnly => .bool c.redisMetricsOnly

/-- The environment variable that the declaration of an option's flag reads
through `getEnv`; `none` for a flag declared with a constant default. -/
def Opt.envKey : Opt → Option String
  | .redisAddr => some "REDIS_ADDR"
  | .redisFile => some "REDIS_FILE"
  | .redisPassword => some "REDIS_PASSWORD"
  | .redisAlias => some "REDIS_ALIAS"
  | _ => none

/-- The constant in the declaration of an option's flag: the second argument
of `getEnv` for the four flags that read the environment, the default itself
for the others. -/
def Opt.builtin : Opt → FlagValue
  | .redisAddr => .str ""
  | .redisFile => .str ""
  | .redisPassword => .str ""
  | .redisAlias => .str ""
  | .namespace_ => .str "redis"
  | .checkKeys => .str ""
  | .separator => .str ","
  | .listenAddress => .str "/dev/shm/redis_exporter.sock"
  | .metricPath => .str "/metrics"
  | .isDebug => .bool false
  | .logFormat => .str "txt"
  | .showVersion => .bool false
  | .useCfBindings => .bool false
  | .redisMetricsOnly => .bool false

/-- The command line on which no flag is given. -/
def CommandLine.none : CommandLine :=
  ⟨.none, .none, .none, .none, .none, .none, .none, .none, .none, .none, .none, .none,
    .none, .none⟩

/-! ## Targets, collectors, registries, handlers -/

/-- Go errors, by their message. -/
abbrev Err := String

/-- The three target lists, as the loaders of package `exporter` return them. -/
abbrev TargetLists := List String × List String × List String

/-- The struct `exporter.RedisHost` that `main` builds for the collector
factory. -/
structure RedisHost where
  Addrs : List String
  Passwords : List String
  Aliases : List String
  deriving DecidableEq, Repr

/-- A collector, identified by how it was built: the exporter collector by the
arguments of `NewRedisExporter`, the build-info gauge by its label values and
its value, an ambient (process, runtime) collector by its name. -/
inductive Collector
  | exporter (host : RedisHost) (ns : String) (checkKeys : String)
  | buildInfo (version commitSha buildDate golangVersion : String) (value : Nat)
  | ambient (name : String)
  deriving DecidableEq, Repr

/-- An HTTP handler: `promhttp.HandlerFor` a registry (given by the collectors
registered in it), `promhttp.Handler` for the default registry, or a handler
function writing a fixed page. -/
inductive Handler
  | promHandlerFor (registered : List Collector)
  | promHandler
  | page (body : String)
  deriving DecidableEq, Repr

/-- A `http.ServeMux`: its registered patterns, in registration order. -/
structure Mux where
  entries : List (String × Handler)
  deriving DecidableEq, Repr

/-- Go `ServeMux.Handle`: `none` is the panic on an empty pattern or on a pattern
that is already registered. -/
def Mux.handle (m : Mux) (pattern : String) (h : Handler) : Option Mux :=
  if pattern = "" then none
  else if m.entries.any (fun e => e.1 == pattern) then none
  else some ⟨m.entries ++ [(pattern, h)]⟩

/-- Whether a pattern of a `ServeMux` matches a request path: exactly, or as a
subtree pattern (ending in a slash) that the path begins with. -/
def patternMatches (pattern path : String) : Bool :=
  pattern == path ||
    (pattern.toList.getLast? == some '/' && startsWith pattern.toList path.toList)

/-- The handler a `ServeMux` picks for a request path: the longest matching
pattern; `none` is the 404 reply.  Matching is on the path alone: patterns
that begin with a host name, and the redirect to a subtree pattern asked
without its final slash, are left out. -/
def Mux.lookup (m : Mux) (path : String) : Option Handler :=
  ((m.entries.filter (fun e => patternMatches e.1 path)).foldl
    (fun best e =>
      match best with
      | none => some e
      | some b => if b.1.length < e.1.length then some e else some b)
    none).map (fun e => e.2)

/-! ## Filesystem -/

/-- What a path names. -/
inductive FileKind
  | regular | socket | directory
  deriving DecidableEq, Repr

/-- The filesystem, as far as removing and binding a socket path goes: the
existing paths, whether the entry at a path may be removed, and whether a
socket may be created at a path that does not exist (parent directory present
and writable, path short enough). -/
structure FS where
  entries : List (String × FileKind)
  removable : String → Bool
  bindable : String → Bool

/-- Whether a path exists. -/
def FS.pathExists (fs : FS) (path : String) : Bool :=
  fs.entries.any (fun e => e.1 == path)

/-- Go `os.Remove`: removes the entry at `path`; an error, and no change, when
there is none or it may not be removed. -/
def FS.osRemove (fs : FS) (path : String) : FS × Option Err :=
  if fs.pathExists path then
    if fs.removable path then
      ({ fs with entries := fs.entries.filter (fun e => !(e.1 == path)) }, none)
    else (fs, some "remove: operation not permitted")
  else (fs, some "remove: no such file or directory")

/-- Whether a unix socket address is abstract: the empty address (bound to an
address the kernel picks) and an address beginning with `@` name no file. -/
def isAbstract (path : String) : Bool :=
  match path.toList with
  | [] => true
  | c :: _ => c == '@'

/-- Go `net.Listen("unix", path)`.  For an abstract address nothing changes in
the filesystem.  Otherwise binding creates the socket file; an error, and no
change, when the path exists already or a socket cannot be created there. -/
def FS.netListen (fs : FS) (path : String) : FS × Option Err :=
  if isAbstract path then
    if fs.bindable path then (fs, none)
    else (fs, some "listen unix: bind: address already in use")
  else if fs.pathExists path then (fs, some "listen unix: bind: address already in use")
  else if fs.bindable path then
    ({ fs with entries := fs.entries ++ [(path, FileKind.socket)] }, none)
  else (fs, some "listen unix: bind: cannot create socket")

/-- Closing a listener made by `net.Listen("unix", path)`: the socket file is
unlinked, the result of the unlink dropped; nothing to unlink for an abstract
address. -/
def FS.closeListener (fs : FS) (path : String) : FS :=
  if isAbstract path then fs else (fs.osRemove path).1

/-! ## The outside world -/

/-- What `main.go` takes from outside: the build variables, the runtime
version, the functions of package `exporter`, and the outcome of the fallible
library calls. -/
structure World where
  VERSION : String
  BUILD_DATE : String
  COMMIT_SHA1 : String
  runtimeVersion : String
  /-- `exporter.LoadRedisFile`. -/
  loadRedisFile : String → Except Err TargetLists
  /-- `exporter.GetCloudFoundryRedisBindings`. -/
  getCloudFoundryRedisBindings : TargetLists
  /-- `exporter.LoadRedisArgs`. -/
  loadRedisArgs : String → String → String → String → TargetLists
  /-- The error of `exporter.NewRedisExporter`, if it fails. -/
  newRedisExporterErr : RedisHost → String → String → Option Err
  /-- The error of registering a collector in a registry that holds the given
  collectors, if it fails (`Registry.Register`). -/
  registerErr : List Collector → Collector → Option Err
  /-- The error `Server.Serve` returns with; `none` when it serves forever. -/
  serveErr : Option Err

/-! ## Observable actions -/

/-- The diagnostic of a `log.Fatal` call, by call site. -/
inductive Diagnostic
  | configurationConflict
  | error (e : Err)
  deriving DecidableEq, Repr

/-- The text `log.Fatal` prints. -/
def Diagnostic.message : Diagnostic → String
  | .configurationConflict => "Cannot specify both redis.addr and redis.file"
  | .error e => e

/-- The registry a registration goes to. -/
inductive RegistryRef
  | fresh | default
  deriving DecidableEq, Repr

/-- The actions of `main`, in program order. -/
inductive Event
  | setFormatter (json : Bool)
  | logPrintf (format : String) (args : List (List String))
  | setLevel (debug : Bool)
  | logDebugln (msg : String)
  | logFatal (d : Diagnostic)
  | loadRedisFile (path : String)
  | getCloudFoundryRedisBindings
  | loadRedisArgs (addr password aliasArg separator : String)
  | newRedisExporter (host : RedisHost) (ns : String) (checkKeys : String)
  | newRegistry
  | register (reg : RegistryRef) (c : Collector) (err : Option Err)
  | muxHandle (pattern : String) (h : Handler)
  | httpHandleFunc (pattern : String) (h : Handler)
  | osRemove (path : String) (err : Option Err)
  | netListen (path : String) (err : Option Err)
  | serve (handler : Mux) (err : Option Err)
  | goPanic (e : Err)
  deriving DecidableEq, Repr

/-- How a run of `main` ends. -/
inductive Exit
  | returned
  | fatal
  | panicked
  | serving
  deriving DecidableEq, Repr

/-- The exit status of the process: 0 when `main` returns, 1 after `log.Fatal`,
2 after a panic; none while `Serve` has not returned. -/
def Exit.status : Exit → Option Nat
  | .returned => some 0
  | .fatal => some 1
  | .panicked => some 2
  | .serving => none

/-- The state of the process and of the filesystem. -/
structure State where
  fs : FS
  /-- The collectors of `prometheus.DefaultRegisterer`. -/
  defaultRegistry : List Collector
  /-- `http.DefaultServeMux`. -/
  defaultServeMux : Mux
  trace : List Event

/-- Append an action to the trace. -/
def State.emit (s : State) (e : Event) : State :=
  { s with trace := s.trace ++ [e] }

/-- A finished (or serving) run. -/
structure Run where
  state : State
  exit : Exit

/-! ## `main` -/

/-- Lines 48-63: log formatter, banner, log level. -/
def setupLogging (w : World) (c : Config) (s : State) : State :=
  let s1 := s.emit (.setFormatter (c.logFormat == "json"))
  let s2 := s1.emit (.logPrintf
    "Redis Metrics Exporter %s    build date: %s    sha1: %s    Go: %s"
    [[w.VERSION], [w.BUILD_DATE], [w.COMMIT_SHA1], [w.runtimeVersion]])
  if c.isDebug then (s2.emit (.setLevel true)).emit (.logDebugln "Enabling debug output")
  else s2.emit (.setLevel false)

/-- Lines 73-86: the switch that picks the target loader and calls it. -/
def loadTargets (w : World) (c : Config) (s : State) : State × Except Err TargetLists :=
  if c.redisFile ≠ "" then
    (s.emit (.loadRedisFile c.redisFile), w.loadRedisFile c.redisFile)
  else if c.useCfBindings then
    (s.emit .getCloudFoundryRedisBindings, .ok w.getCloudFoundryRedisBindings)
  else
    (s.emit (.loadRedisArgs c.redisAddr c.redisPassword c.redisAlias c.separator),
      .ok (w.loadRedisArgs c.redisAddr c.redisPassword c.redisAlias c.separator))

/-- Go `Registry.Register`: the collectors afterwards, and the error. -/
def register (w : World) (reg : List Collector) (c : Collector) :
    List Collector × Option Err :=
  match w.registerErr reg c with
  | some e => (reg, some e)
  | none => (reg ++ [c], none)

/-- Lines 96-100: the build-info gauge vector with its one label set, at 1. -/
def buildInfoGauge (w : World) : Collector :=
  .buildInfo w.VERSION w.COMMIT_SHA1 w.BUILD_DATE w.runtimeVersion 1

/-- Lines 116-124: the page of the root handler. -/
def rootPage (w : World) (c : Config) : String :=
  "\n<html>\n<head><title>Redis Exporter v" ++ w.VERSION ++
  "</title></head>\n<body>\n<h1>Redis Exporter v" ++ w.VERSION ++
  "</h1>\n<p><a href=\x27" ++ c.metricPath ++
  "\x27>Metrics</a></p>\n</body>\n</html>\n\t\t\t\t\t\t"

/-- Lines 131-140: the server gets `mux` as its handler, the socket path is
removed (result dropped), the listener is created (panic on error), and
`Serve` runs; when `Serve` returns it has closed the listener, its result is
dropped and `main` returns.  While `Serve` runs, and after a panic, the
filesystem is as binding left it. -/
def bindAndServe (w : World) (c : Config) (mux : Mux) (s : State) : Run :=
  let rm := s.fs.osRemove c.listenAddress
  let s1 := ({ s with fs := rm.1 } : State).emit (.osRemove c.listenAddress rm.2)
  let ln := s1.fs.netListen c.listenAddress
  let s2 := ({ s1 with fs := ln.1 } : State).emit (.netListen c.listenAddress ln.2)
  match ln.2 with
  | some e => ⟨s2.emit (.goPanic e), .panicked⟩
  | none =>
    match w.serveErr with
    | some e =>
      ⟨({ s2 with fs := s2.fs.closeListener c.listenAddress } : State).emit
        (.serve mux (some e)), .returned⟩
    | none => ⟨s2.emit (.serve mux none), .serving⟩

/-- Lines 115-129: the root page is registered with `http.HandleFunc`, that
is on `http.DefaultServeMux`; then the three log lines; then binding. -/
def installRootAndServe (w : World) (c : Config) (addrs aliases : List String)
    (mux : Mux) (s : State) : Run :=
  match s.defaultServeMux.handle "/" (.page (rootPage w c)) with
  | none => ⟨s.emit (.goPanic "http: multiple registrations for /"), .panicked⟩
  | some dm =>
    let s1 := ({ s with defaultServeMux := dm } : State).emit
      (.httpHandleFunc "/" (.page (rootPage w c)))
    let s2 := s1.emit (.logPrintf "Providing metrics at %s%s" [[c.listenAddress], [c.metricPath]])
    let s3 := s2.emit (.logPrintf "Connecting to redis hosts: %#v" [addrs])
    let s4 := s3.emit (.logPrintf "Using alias: %#v" [aliases])
    bindAndServe w c mux s4

/-- Line 108 and line 112: `mux.Handle(*metricPath, handler)` on the new mux. -/
def handleMetrics (w : World) (c : Config) (addrs aliases : List String)
    (h : Handler) (s : State) : Run :=
  match (Mux.mk []).handle c.metricPath h with
  | none => ⟨s.emit (.goPanic "http: invalid pattern"), .panicked⟩
  | some mux => installRootAndServe w c addrs aliases mux (s.emit (.muxHandle c.metricPath h))

/-- Lines 102-113: the two registry topologies.  With `redis-only-metrics` a new
registry gets both collectors through `Register`, whose results are dropped;
otherwise both go to the default registry through `MustRegister`, which
panics on an error. -/
def composeRegistry (w : World) (c : Config) (addrs aliases : List String)
    (exp : Collector) (s : State) : Run :=
  if c.redisMetricsOnly then
    let s1 := s.emit .newRegistry
    let r1 := register w [] exp
    let s2 := s1.emit (.register .fresh exp r1.2)
    let r2 := register w r1.1 (buildInfoGauge w)
    let s3 := s2.emit (.register .fresh (buildInfoGauge w) r2.2)
    handleMetrics w c addrs aliases (.promHandlerFor r2.1) s3
  else
    let r1 := register w s.defaultRegistry exp
    let s1 := ({ s with defaultRegistry := r1.1 } : State).emit (.register .default exp r1.2)
    match r1.2 with
    | some e => ⟨s1.emit (.goPanic e), .panicked⟩
    | none =>
      let r2 := register w s1.defaultRegistry (buildInfoGauge w)
      let s2 := ({ s1 with defaultRegistry := r2.1 } : State).emit
        (.register .default (buildInfoGauge w) r2.2)
      match r2.2 with
      | some e => ⟨s2.emit (.goPanic e), .panicked⟩
      | none => handleMetrics w c addrs aliases .promHandler s2

/-- Lines 88-94: the collector is built from the three lists; an error is
fatal. -/
def construct (w : World) (c : Config) (t : TargetLists) (s : State) : Run :=
  let host : RedisHost := { Addrs := t.1, Passwords := t.2.1, Aliases := t.2.2 }
  let s1 := s.emit (.newRedisExporter host c.namespace_ c.checkKeys)
  match w.newRedisExporterErr host c.namespace_ c.checkKeys with
  | some e => ⟨s1.emit (.logFatal (.error e)), .fatal⟩
  | none => composeRegistry w c t.1 t.2.2 (.exporter host c.namespace_ c.checkKeys) s1

/-- Source `main`, on the parsed flags. -/
def mainWith (w : World) (c : Config) (s : State) : Run :=
  let s1 := setupLogging w c s
  if c.showVersion then ⟨s1, .returned⟩
  else if c.redisFile ≠ "" ∧ c.redisAddr ≠ "" then
    ⟨s1.emit (.logFatal .configurationConflict), .fatal⟩
  else
    let lt := loadTargets w c s1
    match lt.2 with
    | .error e => ⟨lt.1.emit (.logFatal (.error e)), .fatal⟩
    | .ok t => construct w c t lt.1

/-- The state a process starts in: nothing done yet. -/
def State.start (fs : FS) (defaultRegistry : List Collector) (defaultServeMux : Mux) : State :=
  ⟨fs, defaultRegistry, defaultServeMux, []⟩

/-- Source `main`: the flags are parsed, then the program runs. -/
def main (w : World) (env : Env) (cl : CommandLine) (s : State) : Run :=
  mainWith w (flagParse env cl) s

/-! ## Reading a trace -/

/-- Logging actions. -/
def Event.isLogging : Event → Bool
  | .setFormatter _ => true
  | .logPrintf _ _ => true
  | .setLevel _ => true
  | .logDebugln _ => true
  | _ => false

/-- The actions of lines 48-63, as `setupLogging` appends them. -/
def setupLoggingEvents (w : World) (c : Config) : List Event :=
  [.setFormatter (c.logFormat == "json"),
    .logPrintf "Redis Metrics Exporter %s    build date: %s    sha1: %s    Go: %s"
      [[w.VERSION], [w.BUILD_DATE], [w.COMMIT_SHA1], [w.runtimeVersion]]] ++
  (if c.isDebug then [.setLevel true, .logDebugln "Enabling debug output"]
    else [.setLevel false])

/-- Calls of a target loader. -/
def Event.isLoader : Event → Bool
  | .loadRedisFile _ => true
  | .getCloudFoundryRedisBindings => true
  | .loadRedisArgs _ _ _ _ => true
  | _ => false

/-- Calls of the collector factory. -/
def Event.isConstruct : Event → Bool
  | .newRedisExporter _ _ _ => true
  | _ => false

/-- Creating a registry or registering in one. -/
def Event.isRegister : Event → Bool
  | .newRegistry => true
  | .register _ _ _ => true
  | _ => false

/-- Installing a handler. -/
def Event.isHandle : Event → Bool
  | .muxHandle _ _ => true
  | .httpHandleFunc _ _ => true
  | _ => false

/-- Removing the socket path, binding it, serving on it. -/
def Event.isSocketOp : Event → Bool
  | .osRemove _ _ => true
  | .netListen _ _ => true
  | .serve _ _ => true
  | _ => false

/-- Removals of a path, whatever the path. -/
def Event.isRemove : Event → Bool
  | .osRemove _ _ => true
  | _ => false

/-- Abnormal termination: `log.Fatal` or a panic. -/
def Event.isAbort : Event → Bool
  | .logFatal _ => true
  | .goPanic _ => true
  | _ => false

/-- The actions that follow a successful collector construction: registry and
handler set-up, the log lines before binding, the socket actions, a panic. -/
def Event.isService : Event → Bool
  | .newRegistry => true
  | .register _ _ _ => true
  | .muxHandle _ _ => true
  | .httpHandleFunc _ _ => true
  | .logPrintf _ _ => true
  | .osRemove _ _ => true
  | .netListen _ _ => true
  | .serve _ _ => true
  | .goPanic _ => true
  | _ => false

/-- The three target-specification sources of the specification. -/
inductive TargetSpec
  | InlineSpec | FileSpec | DiscoverySpec
  deriving DecidableEq, Repr

/-- The source a loader call stands for: `LoadRedisFile` for the file,
`GetCloudFoundryRedisBindings` for discovery, `LoadRedisArgs` for the inline
specification. -/
def Event.source : Event → Option TargetSpec
  | .loadRedisFile _ => some .FileSpec
  | .getCloudFoundryRedisBindings => some .DiscoverySpec
  | .loadRedisArgs _ _ _ _ => some .InlineSpec
  | _ => none

/-- The sources a run took its targets from, in order. -/
def chosenSources (trace : List Event) : List TargetSpec :=
  trace.filterMap Event.source

/-- The reference decision of the source selector, written from the words of
the specification (section 4.1), to be compared with the switch of `main`:
`none` is the configuration conflict. -/
def SourceSelector (addressSpec fileSpec : String) (discoveryFlag : Bool) :
    Option TargetSpec :=
  if addressSpec ≠ "" ∧ fileSpec ≠ "" then none
  else if fileSpec ≠ "" then some .FileSpec
  else if discoveryFlag then some .DiscoverySpec
  else some .InlineSpec

/-! ## The inline target parser -/

/-- One resolved target of the specification. -/
structure ResolvedTarget where
  address : String
  credential : String
  displayAlias : String
  deriving DecidableEq, Repr

/-- Pairing by position: one target per address, the credential and the alias
at the same position when there is one, else the empty string. -/
def padZip : List String → List String → List String → List ResolvedTarget
  | [], _, _ => []
  | a :: as, cs, ls => ⟨a, cs.headD "", ls.headD ""⟩ :: padZip as cs.tail ls.tail

/-- Modelled from the spec: `exporter.LoadRedisArgs`, whose source is not
among the files of `src/`.  Section 4.2: the three strings are split on the
separator and paired by position, one target per address, a missing credential
or alias being empty; an empty address string gives no target at all.  The
result is returned as three lists, as the call in `main` takes it. -/
def LoadRedisArgs (addr password aliasArg separator : String) : TargetLists :=
  let targets :=
    if addr = "" then []
    else padZip (stringsSplit addr separator) (stringsSplit password separator)
      (stringsSplit aliasArg separator)
  (targets.map (fun t => t.address), targets.map (fun t => t.credential),
    targets.map (fun t => t.displayAlias))

/-! ## Concrete worlds -/

/-- A world in which every call succeeds and the server serves forever; the
inline loader is the one modelled from the specification. -/
def quietWorld : World where
  VERSION := "1.0"
  BUILD_DATE := "2018-01-01"
  COMMIT_SHA1 := "abc"
  runtimeVersion := "go1.10"
  loadRedisFile := fun _ => .ok (["redis://h:6379"], [""], [""])
  getCloudFoundryRedisBindings := ([], [], [])
  loadRedisArgs := LoadRedisArgs
  newRedisExporterErr := fun _ _ _ => none
  registerErr := fun _ _ => none
  serveErr := none

/-- A registry that rejects the exporter collector, as the metrics library
does for a collector with an invalid descriptor, and accepts the others. -/
def rejectExporter (_ : List Collector) : Collector → Option Err
  | .exporter _ _ _ => some "descriptor is invalid"
  | _ => none

/-- The quiet world with the registry that rejects the exporter collector. -/
def rejectingWorld : World :=
  { quietWorld with registerErr := rejectExporter }

/-- The rejecting world in which `Serve` returns with an error. -/
def stoppingWorld : World :=
  { rejectingWorld with serveErr := some "accept unix: use of closed network connection" }

/-- A filesystem with no entry, where everything is permitted. -/
def emptyFS : FS := ⟨[], fun _ => true, fun _ => true⟩

/-- The empty environment. -/
def noEnv : Env := fun _ => none

/-! ## Lemmas on the phases of `main` -/

theorem setupLogging_eq (w : World) (c : Config) (s : State) :
    setupLogging w c s = { s with trace := s.trace ++ setupLoggingEvents w c } := by
  unfold setupLogging setupLoggingEvents State.emit
  cases c.isDebug <;> simp

theorem setupLoggingEvents_isLogging (w : World) (c : Config) :
    ∀ e ∈ setupLoggingEvents w c, e.isLogging = true := by
  intro e he
  unfold setupLoggingEvents at he
  cases hd : c.isDebug
  · simp [hd] at he
    rcases he with rfl | rfl | rfl <;> rfl
  · simp [hd] at he
    rcases he with rfl | rfl | rfl | rfl <;> rfl

/-- The actions of the binding step, in order. -/
theorem bindAndServe_trace (w : World) (c : Config) (mux : Mux) (s : State) :
    (bindAndServe w c mux s).state.trace =
      s.trace ++ [.osRemove c.listenAddress (s.fs.osRemove c.listenAddress).2,
        .netListen c.listenAddress
          ((s.fs.osRemove c.listenAddress).1.netListen c.listenAddress).2] ++
      (match ((s.fs.osRemove c.listenAddress).1.netListen c.listenAddress).2 with
        | some e => [.goPanic e]
        | none => [.serve mux w.serveErr]) := by
  unfold bindAndServe
  simp only [State.emit]
  cases h1 : ((s.fs.osRemove c.listenAddress).1.netListen c.listenAddress).2 with
  | some e => simp
  | none => cases h2 : w.serveErr <;> simp

theorem bindAndServe_fs (w : World) (c : Config) (mux : Mux) (s : State) :
    (bindAndServe w c mux s).state.fs =
      (match ((s.fs.osRemove c.listenAddress).1.netListen c.listenAddress).2 with
        | some _ => ((s.fs.osRemove c.listenAddress).1.netListen c.listenAddress).1
        | none => match w.serveErr with
          | some _ => ((s.fs.osRemove c.listenAddress).1.netListen
              c.listenAddress).1.closeListener c.listenAddress
          | none => ((s.fs.osRemove c.listenAddress).1.netListen c.listenAddress).1) := by
  unfold bindAndServe
  simp only [State.emit]
  cases h1 : ((s.fs.osRemove c.listenAddress).1.netListen c.listenAddress).2 with
  | some e => simp
  | none => cases h2 : w.serveErr <;> simp

theorem bindAndServe_exit (w : World) (c : Config) (mux : Mux) (s : State) :
    (bindAndServe w c mux s).exit =
      (match ((s.fs.osRemove c.listenAddress).1.netListen c.listenAddress).2 with
        | some _ => .panicked
        | none => match w.serveErr with
          | some _ => .returned
          | none => .serving) := by
  unfold bindAndServe
  simp only [State.emit]
  cases h1 : ((s.fs.osRemove c.listenAddress).1.netListen c.listenAddress).2 with
  | some e => simp
  | none => cases h2 : w.serveErr <;> simp

theorem bindAndServe_rest (w : World) (c : Config) (mux : Mux) (s : State) :
    (bindAndServe w c mux s).state.defaultRegistry = s.defaultRegistry ∧
    (bindAndServe w c mux s).state.defaultServeMux = s.defaultServeMux := by
  unfold bindAndServe
  simp only [State.emit]
  cases h1 : ((s.fs.osRemove c.listenAddress).1.netListen c.listenAddress).2 with
  | some e => simp
  | none => cases h2 : w.serveErr <;> simp


theorem installRoot_reach (w : World) (c : Config) (a l : List String) (mux : Mux)
    (s : State) :
    ∃ evs, (∀ e ∈ evs, e.isSocketOp = false ∧ e.isService = true ∧ e.isRegister = false ∧
        ∀ p h', e ≠ .muxHandle p h') ∧
      ((∀ fs', (installRootAndServe w c a l mux { s with fs := fs' }).state.trace
            = s.trace ++ evs ∧
          (installRootAndServe w c a l mux { s with fs := fs' }).state.fs = fs' ∧
          (installRootAndServe w c a l mux { s with fs := fs' }).exit = .panicked ∧
          (installRootAndServe w c a l mux { s with fs := fs' }).state.defaultRegistry
            = s.defaultRegistry) ∨
        (∃ s' : State, s'.trace = s.trace ++ evs ∧ s'.defaultRegistry = s.defaultRegistry ∧
          ∀ fs', installRootAndServe w c a l mux { s with fs := fs' }
            = bindAndServe w c mux { s' with fs := fs' })) := by
  cases h : s.defaultServeMux.handle "/" (.page (rootPage w c)) with
  | none =>
    refine ⟨[.goPanic "http: multiple registrations for /"], ?_, Or.inl ?_⟩
    · intro e he
      simp at he
      subst he
      exact ⟨rfl, rfl, rfl, by intro p h' hc; cases hc⟩
    · intro fs'
      simp [installRootAndServe, h, State.emit]
  | some dm =>
    refine ⟨[.httpHandleFunc "/" (.page (rootPage w c)),
      .logPrintf "Providing metrics at %s%s" [[c.listenAddress], [c.metricPath]],
      .logPrintf "Connecting to redis hosts: %#v" [a],
      .logPrintf "Using alias: %#v" [l]], ?_, Or.inr ?_⟩
    · intro e he
      simp at he
      rcases he with rfl | rfl | rfl | rfl <;> exact ⟨rfl, rfl, rfl, by intro p h' hc; cases hc⟩
    · refine ⟨{ s with defaultServeMux := dm, trace := s.trace ++
        [.httpHandleFunc "/" (.page (rootPage w c)),
        .logPrintf "Providing metrics at %s%s" [[c.listenAddress], [c.metricPath]],
        .logPrintf "Connecting to redis hosts: %#v" [a],
        .logPrintf "Using alias: %#v" [l]] }, rfl, rfl, ?_⟩
      intro fs'
      simp [installRootAndServe, h, State.emit]


theorem handleMetrics_reach (w : World) (c : Config) (a l : List String) (h : Handler)
    (s : State) :
    ∃ evs, (∀ e ∈ evs, e.isSocketOp = false ∧ e.isService = true ∧ e.isRegister = false) ∧
      (∀ p h', Event.muxHandle p h' ∈ evs → p = c.metricPath ∧ h' = h) ∧
      ((∀ fs', (handleMetrics w c a l h { s with fs := fs' }).state.trace
            = s.trace ++ evs ∧
          (handleMetrics w c a l h { s with fs := fs' }).state.fs = fs' ∧
          (handleMetrics w c a l h { s with fs := fs' }).exit = .panicked ∧
          (handleMetrics w c a l h { s with fs := fs' }).state.defaultRegistry
            = s.defaultRegistry) ∨
        (∃ s' : State, s'.trace = s.trace ++ evs ∧ s'.defaultRegistry = s.defaultRegistry ∧
          Event.muxHandle c.metricPath h ∈ evs ∧
          ∀ fs', handleMetrics w c a l h { s with fs := fs' }
            = bindAndServe w c ⟨[(c.metricPath, h)]⟩ { s' with fs := fs' })) := by
  by_cases hp : c.metricPath = ""
  · refine ⟨[.goPanic "http: invalid pattern"], ?_, ?_, Or.inl ?_⟩
    · intro e he
      simp at he
      subst he
      exact ⟨rfl, rfl, rfl⟩
    · intro p h' he
      simp at he
    · intro fs'
      simp [handleMetrics, Mux.handle, hp, State.emit]
  · have hm : (Mux.mk []).handle c.metricPath h = some ⟨[(c.metricPath, h)]⟩ := by
      simp [Mux.handle, hp]
    obtain ⟨evs, hgood, hcase⟩ := installRoot_reach w c a l ⟨[(c.metricPath, h)]⟩
      (s.emit (.muxHandle c.metricPath h))
    refine ⟨.muxHandle c.metricPath h :: evs, ?_, ?_, ?_⟩
    · intro e he
      rcases List.mem_cons.mp he with rfl | he
      · exact ⟨rfl, rfl, rfl⟩
      · exact ⟨(hgood e he).1, (hgood e he).2.1, (hgood e he).2.2.1⟩
    · intro p h' he
      rcases List.mem_cons.mp he with heq | he
      · injection heq with h1 h2
        exact ⟨h1, h2⟩
      · exact absurd rfl ((hgood _ he).2.2.2 p h')
    · rcases hcase with hl | ⟨s', hs', hreg, hr⟩
      · left
        intro fs'
        have := hl fs'
        simpa [handleMetrics, hm, State.emit] using this
      · right
        refine ⟨s', ?_, ?_, List.mem_cons_self _ _, ?_⟩
        · simpa [State.emit] using hs'
        · simpa [State.emit] using hreg
        · intro fs'
          have := hr fs'
          simpa [handleMetrics, hm, State.emit] using this


theorem composeRegistry_reach (w : World) (c : Config) (a l : List String)
    (exp : Collector) (s : State) :
    ∃ evs, (∀ e ∈ evs, e.isSocketOp = false ∧ e.isService = true) ∧
      ((∀ fs', (composeRegistry w c a l exp { s with fs := fs' }).state.trace
            = s.trace ++ evs ∧
          (composeRegistry w c a l exp { s with fs := fs' }).state.fs = fs' ∧
          (composeRegistry w c a l exp { s with fs := fs' }).exit = .panicked) ∨
        (∃ (h : Handler) (s' : State), (h = .promHandler ∨ ∃ reg, h = .promHandlerFor reg) ∧
          s'.trace = s.trace ++ evs ∧ Event.muxHandle c.metricPath h ∈ evs ∧
          ∀ fs', composeRegistry w c a l exp { s with fs := fs' }
            = bindAndServe w c ⟨[(c.metricPath, h)]⟩ { s' with fs := fs' })) := by
  by_cases hm : c.redisMetricsOnly = true
  · obtain ⟨evs, hgood, _, hcase⟩ := handleMetrics_reach w c a l
      (.promHandlerFor (register w (register w [] exp).1 (buildInfoGauge w)).1)
      (((s.emit .newRegistry).emit (.register .fresh exp (register w [] exp).2)).emit
        (.register .fresh (buildInfoGauge w)
          (register w (register w [] exp).1 (buildInfoGauge w)).2))
    refine ⟨[.newRegistry, .register .fresh exp (register w [] exp).2,
      .register .fresh (buildInfoGauge w)
        (register w (register w [] exp).1 (buildInfoGauge w)).2] ++ evs, ?_, ?_⟩
    · intro e he
      rcases List.mem_append.mp he with he | he
      · simp at he
        rcases he with rfl | rfl | rfl <;> exact ⟨rfl, rfl⟩
      · exact ⟨(hgood e he).1, (hgood e he).2.1⟩
    · rcases hcase with hl | ⟨s', hs', _, hmem, hr⟩
      · left
        intro fs'
        have := And.intro (hl fs').1 (And.intro (hl fs').2.1 (hl fs').2.2.1)
        simpa [composeRegistry, hm, State.emit] using this
      · right
        refine ⟨_, s', Or.inr ⟨_, rfl⟩, ?_, List.mem_append_right _ hmem, ?_⟩
        · simpa [State.emit] using hs'
        · intro fs'
          have := hr fs'
          simpa [composeRegistry, hm, State.emit] using this
  · cases h1 : w.registerErr s.defaultRegistry exp with
    | some e1 =>
      refine ⟨[.register .default exp (some e1), .goPanic e1], ?_, Or.inl ?_⟩
      · intro e he
        simp at he
        rcases he with rfl | rfl <;> exact ⟨rfl, rfl⟩
      · intro fs'
        simp [composeRegistry, hm, State.emit, register, h1]
    | none =>
      cases h2 : w.registerErr (s.defaultRegistry ++ [exp]) (buildInfoGauge w) with
      | some e2 =>
        refine ⟨[.register .default exp none, .register .default (buildInfoGauge w) (some e2),
          .goPanic e2], ?_, Or.inl ?_⟩
        · intro e he
          simp at he
          rcases he with rfl | rfl | rfl <;> exact ⟨rfl, rfl⟩
        · intro fs'
          simp [composeRegistry, hm, State.emit, register, h1, h2]
      | none =>
        obtain ⟨evs, hgood, _, hcase⟩ := handleMetrics_reach w c a l .promHandler
          ({ s with defaultRegistry := s.defaultRegistry ++ [exp, buildInfoGauge w],
                    trace := s.trace ++ [.register .default exp none,
                      .register .default (buildInfoGauge w) none] } : State)
        refine ⟨[.register .default exp none,
          .register .default (buildInfoGauge w) none] ++ evs, ?_, ?_⟩
        · intro e he
          rcases List.mem_append.mp he with he | he
          · simp at he
            rcases he with rfl | rfl <;> exact ⟨rfl, rfl⟩
          · exact ⟨(hgood e he).1, (hgood e he).2.1⟩
        · rcases hcase with hl | ⟨s', hs', _, hmem, hr⟩
          · left
            intro fs'
            have := And.intro (hl fs').1 (And.intro (hl fs').2.1 (hl fs').2.2.1)
            simpa [composeRegistry, hm, State.emit, register, h1, h2] using this
          · right
            refine ⟨_, s', Or.inl rfl, ?_, List.mem_append_right _ hmem, ?_⟩
            · simpa using hs'
            · intro fs'
              have := hr fs'
              simpa [composeRegistry, hm, State.emit, register, h1, h2] using this


theorem bindAndServe_class (w : World) (c : Config) (mux : Mux) (s : State) :
    ∃ evs, (bindAndServe w c mux s).state.trace = s.trace ++ evs ∧
      ∀ e ∈ evs, e.isService = true := by
  rw [bindAndServe_trace]
  refine ⟨_, List.append_assoc _ _ _, ?_⟩
  intro e he
  cases h1 : ((s.fs.osRemove c.listenAddress).1.netListen c.listenAddress).2 with
  | some e1 =>
    simp [h1] at he
    rcases he with rfl | rfl | rfl <;> rfl
  | none =>
    simp [h1] at he
    rcases he with rfl | rfl | rfl <;> rfl

/-- After the collector is built only service actions follow. -/
theorem composeRegistry_class (w : World) (c : Config) (a l : List String)
    (exp : Collector) (s : State) :
    ∃ evs, (composeRegistry w c a l exp s).state.trace = s.trace ++ evs ∧
      ∀ e ∈ evs, e.isService = true := by
  obtain ⟨evs, hgood, hcase⟩ := composeRegistry_reach w c a l exp s
  rcases hcase with hl | ⟨h, s', _, hs', _, hr⟩
  · exact ⟨evs, (hl s.fs).1, fun e he => (hgood e he).2⟩
  · obtain ⟨evs2, h2, hg2⟩ :=
      bindAndServe_class w c ⟨[(c.metricPath, h)]⟩ { s' with fs := s.fs }
    have hrun : composeRegistry w c a l exp s
        = bindAndServe w c ⟨[(c.metricPath, h)]⟩ { s' with fs := s.fs } := hr s.fs
    refine ⟨evs ++ evs2, ?_, ?_⟩
    · rw [hrun, h2]
      simp [hs']
    · intro e he
      rcases List.mem_append.mp he with he | he
      · exact (hgood e he).2
      · exact hg2 e he

/-- The actions of collector construction and what follows it. -/
theorem construct_class (w : World) (c : Config) (t : TargetLists) (s : State) :
    ∃ rest, (construct w c t s).state.trace =
        s.trace ++ [.newRedisExporter ⟨t.1, t.2.1, t.2.2⟩ c.namespace_ c.checkKeys] ++ rest ∧
      ((∃ e, w.newRedisExporterErr ⟨t.1, t.2.1, t.2.2⟩ c.namespace_ c.checkKeys = some e ∧
          rest = [.logFatal (.error e)]) ∨
        (w.newRedisExporterErr ⟨t.1, t.2.1, t.2.2⟩ c.namespace_ c.checkKeys = none ∧
          ∀ e ∈ rest, e.isService = true)) := by
  cases h : w.newRedisExporterErr ⟨t.1, t.2.1, t.2.2⟩ c.namespace_ c.checkKeys with
  | some e =>
    refine ⟨[.logFatal (.error e)], ?_, Or.inl ⟨e, rfl, rfl⟩⟩
    simp [construct, h, State.emit]
  | none =>
    obtain ⟨evs, h1, h2⟩ := composeRegistry_class w c t.1 t.2.2
      (.exporter ⟨t.1, t.2.1, t.2.2⟩ c.namespace_ c.checkKeys)
      (s.emit (.newRedisExporter ⟨t.1, t.2.1, t.2.2⟩ c.namespace_ c.checkKeys))
    refine ⟨evs, ?_, Or.inr ⟨rfl, h2⟩⟩
    simpa [construct, h, State.emit] using h1

/-- The loader call of `loadTargets`, by the reference decision. -/
theorem loadTargets_trace (w : World) (c : Config) (s : State)
    (hc : ¬ (c.redisFile ≠ "" ∧ c.redisAddr ≠ "")) :
    ∃ ev, (loadTargets w c s).1 = s.emit ev ∧
      ev.source = SourceSelector c.redisAddr c.redisFile c.useCfBindings ∧
      ev.isLoader = true := by
  unfold loadTargets SourceSelector
  by_cases hf : c.redisFile = ""
  · cases hb : c.useCfBindings
    · exact ⟨.loadRedisArgs c.redisAddr c.redisPassword c.redisAlias c.separator,
        by simp [hf, hb], by simp [hf, hb, Event.source], rfl⟩
    · exact ⟨.getCloudFoundryRedisBindings, by simp [hf, hb],
        by simp [hf, hb, Event.source], rfl⟩
  · have ha : c.redisAddr = "" := by
      by_contra ha
      exact hc ⟨hf, ha⟩
    exact ⟨.loadRedisFile c.redisFile, by simp [hf], by simp [hf, ha, Event.source], rfl⟩


/-- The run of `main` past the version flag and the conflict check: logging,
one loader call, then either the fatal load error or collector construction
and what follows it. -/
theorem mainWith_trace (w : World) (c : Config) (s : State)
    (hv : c.showVersion = false) (hc : ¬ (c.redisFile ≠ "" ∧ c.redisAddr ≠ "")) :
    ∃ ev rest, ev.isLoader = true ∧
      ev.source = SourceSelector c.redisAddr c.redisFile c.useCfBindings ∧
      (loadTargets w c (setupLogging w c s)).1 = (setupLogging w c s).emit ev ∧
      (mainWith w c s).state.trace = s.trace ++ setupLoggingEvents w c ++ [ev] ++ rest ∧
      ((∃ e, (loadTargets w c (setupLogging w c s)).2 = .error e ∧
          rest = [.logFatal (.error e)]) ∨
        (∃ t rest', (loadTargets w c (setupLogging w c s)).2 = .ok t ∧
          rest = .newRedisExporter ⟨t.1, t.2.1, t.2.2⟩ c.namespace_ c.checkKeys :: rest' ∧
          ((∃ e, w.newRedisExporterErr ⟨t.1, t.2.1, t.2.2⟩ c.namespace_ c.checkKeys = some e ∧
              rest' = [.logFatal (.error e)]) ∨
            (w.newRedisExporterErr ⟨t.1, t.2.1, t.2.2⟩ c.namespace_ c.checkKeys = none ∧
              ∀ e ∈ rest', e.isService = true)))) := by
  obtain ⟨ev, hev, hsrc, hld⟩ := loadTargets_trace w c (setupLogging w c s) hc
  have htr : ((setupLogging w c s).emit ev).trace = s.trace ++ setupLoggingEvents w c ++ [ev] := by
    simp [setupLogging_eq, State.emit]
  cases hres : (loadTargets w c (setupLogging w c s)).2 with
  | error e =>
    refine ⟨ev, [.logFatal (.error e)], hld, hsrc, hev, ?_, Or.inl ⟨e, rfl, rfl⟩⟩
    simp only [mainWith, hv, hc, hres, hev]
    simp [State.emit, setupLogging_eq]
  | ok t =>
    obtain ⟨rest', h1, h2⟩ := construct_class w c t ((setupLogging w c s).emit ev)
    refine ⟨ev, .newRedisExporter ⟨t.1, t.2.1, t.2.2⟩ c.namespace_ c.checkKeys :: rest',
      hld, hsrc, hev, ?_, Or.inr ⟨t, rest', rfl, rfl, h2⟩⟩
    simp only [mainWith, hv, hc, hres, hev]
    simp only [Bool.false_eq_true, if_false]
    rw [h1, htr]
    simp

theorem isLogging_only (e : Event) (h : e.isLogging = true) :
    e.isLoader = false ∧ e.isConstruct = false ∧ e.isRegister = false ∧
      e.isHandle = false ∧ e.isSocketOp = false ∧ e.isAbort = false ∧ e.source = none := by
  cases e <;> simp_all [Event.isLogging, Event.isLoader, Event.isConstruct, Event.isRegister,
    Event.isHandle, Event.isSocketOp, Event.isAbort, Event.source]

theorem isService_only (e : Event) (h : e.isService = true) :
    e.isLoader = false ∧ e.isConstruct = false ∧ e.source = none ∧
      e ≠ .logFatal .configurationConflict := by
  cases e <;> simp_all [Event.isService, Event.isLoader, Event.isConstruct, Event.source]

theorem isLoader_only (e : Event) (h : e.isLoader = true) :
    e.isConstruct = false ∧ e.isRegister = false ∧ e.isHandle = false ∧
      e.isSocketOp = false ∧ e.isAbort = false := by
  cases e <;> simp_all [Event.isLoader, Event.isConstruct, Event.isRegister,
    Event.isHandle, Event.isSocketOp, Event.isAbort]

/-- Without a conflict the conflict diagnostic is never logged. -/
theorem conflict_not_logged (w : World) (c : Config) (fs : FS) (dr : List Collector)
    (dm : Mux) (hc' : ¬ (c.redisFile ≠ "" ∧ c.redisAddr ≠ "")) :
    Event.logFatal .configurationConflict ∉
      (mainWith w c (State.start fs dr dm)).state.trace := by
  intro hmem
  cases hv : c.showVersion with
  | true =>
    have hrun : mainWith w c (State.start fs dr dm)
        = ⟨setupLogging w c (State.start fs dr dm), .returned⟩ := by
      simp [mainWith, hv]
    rw [hrun] at hmem
    simp only [setupLogging_eq, State.start, List.nil_append] at hmem
    have := setupLoggingEvents_isLogging w c _ hmem
    simp [Event.isLogging] at this
  | false =>
    obtain ⟨ev, rest, hev, _, _, htr, hrest⟩ :=
      mainWith_trace w c (State.start fs dr dm) hv hc'
    rw [htr] at hmem
    simp only [State.start, List.nil_append, List.mem_append, List.mem_singleton] at hmem
    rcases hmem with (hmem | hmem) | hmem
    · have := setupLoggingEvents_isLogging w c _ hmem
      simp [Event.isLogging] at this
    · rw [← hmem] at hev
      simp [Event.isLoader] at hev
    · rcases hrest with ⟨e, _, rfl⟩ | ⟨t, rest', _, rfl, hr⟩
      · simp at hmem
      · rcases List.mem_cons.mp hmem with h | h
        · cases h
        · rcases hr with ⟨e, _, rfl⟩ | ⟨_, hs⟩
          · simp at h
          · exact (isService_only _ (hs _ h)).2.2.2 rfl

/-- C1: with the version flag unset and both `redis.addr` and `redis.file`
non-empty, `main` ends in `log.Fatal` (exit status 1) with the conflict
diagnostic right after the logging set-up: no loader is called, no collector
is built, nothing is registered or installed, the socket path is neither
removed nor bound, and the filesystem and the process-wide registry and mux
are as they were.  When at most one of the two is non-empty, the conflict
diagnostic is never logged. -/
theorem C1_conflict_is_fatal_before_loading (w : World) (env : Env) (cl : CommandLine)
    (fs : FS) (dr : List Collector) (dm : Mux) :
    ((flagParse env cl).showVersion = false →
      (flagParse env cl).redisAddr ≠ "" → (flagParse env cl).redisFile ≠ "" →
      (main w env cl (State.start fs dr dm)).exit = .fatal ∧
      (main w env cl (State.start fs dr dm)).exit.status = some 1 ∧
      (main w env cl (State.start fs dr dm)).state.trace =
        setupLoggingEvents w (flagParse env cl) ++ [.logFatal .configurationConflict] ∧
      Diagnostic.configurationConflict.message
        = "Cannot specify both redis.addr and redis.file" ∧
      (∀ e ∈ (main w env cl (State.start fs dr dm)).state.trace,
        e.isLoader = false ∧ e.isConstruct = false ∧ e.isRegister = false ∧
        e.isHandle = false ∧ e.isSocketOp = false) ∧
      (main w env cl (State.start fs dr dm)).state.fs = fs ∧
      (main w env cl (State.start fs dr dm)).state.defaultRegistry = dr ∧
      (main w env cl (State.start fs dr dm)).state.defaultServeMux = dm) ∧
    (¬ ((flagParse env cl).redisAddr ≠ "" ∧ (flagParse env cl).redisFile ≠ "") →
      Event.logFatal .configurationConflict ∉
        (main w env cl (State.start fs dr dm)).state.trace) := by
  unfold main
  generalize flagParse env cl = c
  constructor
  · intro hv ha hf
    have hrun : mainWith w c (State.start fs dr dm) =
        ⟨(setupLogging w c (State.start fs dr dm)).emit (.logFatal .configurationConflict),
          .fatal⟩ := by
      simp [mainWith, hv, ha, hf]
    rw [hrun]
    refine ⟨rfl, rfl, ?_, rfl, ?_, ?_, ?_, ?_⟩
    · simp [setupLogging_eq, State.emit, State.start]
    rotate_left
    · simp [setupLogging_eq, State.emit, State.start]
    · simp [setupLogging_eq, State.emit, State.start]
    · simp [setupLogging_eq, State.emit, State.start]
    · intro e he
      simp only [setupLogging_eq, State.emit, State.start, List.nil_append,
        List.mem_append, List.mem_singleton] at he
      rcases he with he | rfl
      · have := isLogging_only e (setupLoggingEvents_isLogging w c e he)
        exact ⟨this.1, this.2.1, this.2.2.1, this.2.2.2.1, this.2.2.2.2.1⟩
      · exact ⟨rfl, rfl, rfl, rfl, rfl⟩
  · intro hc
    exact conflict_not_logged w c fs dr dm (fun h => hc ⟨h.2, h.1⟩)

/-- C1 at a concrete input: both `redis.addr` and `redis.file` given ends fatally; `redis.addr` alone never logs the conflict. -/
theorem C1_conflict_is_fatal_before_loading_witness :
    (main quietWorld noEnv
        { CommandLine.none with redisAddr := some "a:1", redisFile := some "hosts.txt" }
        (State.start emptyFS [] ⟨[]⟩)).exit = .fatal ∧
    Event.logFatal .configurationConflict ∉
      (main quietWorld noEnv { CommandLine.none with redisAddr := some "a:1" }
        (State.start emptyFS [] ⟨[]⟩)).state.trace :=
  ⟨((C1_conflict_is_fatal_before_loading quietWorld noEnv
        { CommandLine.none with redisAddr := some "a:1", redisFile := some "hosts.txt" }
        emptyFS [] ⟨[]⟩).1 (by decide) (by decide) (by decide)).1,
    (C1_conflict_is_fatal_before_loading quietWorld noEnv
        { CommandLine.none with redisAddr := some "a:1" } emptyFS [] ⟨[]⟩).2 (by decide)⟩


/-- C8: with the version flag set, whatever the other options are, `main`
returns normally (exit status 0) after the logging set-up alone: its trace
holds logging actions only, so no fatal diagnostic, no loader call, no
collector construction, no registration, no handler, no removal or binding of
the socket path; filesystem, default registry and default mux are unchanged. -/
theorem C8_version_flag_returns_at_once (w : World) (env : Env) (cl : CommandLine)
    (fs : FS) (dr : List Collector) (dm : Mux)
    (hv : (flagParse env cl).showVersion = true) :
    (main w env cl (State.start fs dr dm)).exit = .returned ∧
    (main w env cl (State.start fs dr dm)).exit.status = some 0 ∧
    (main w env cl (State.start fs dr dm)).state.trace
      = setupLoggingEvents w (flagParse env cl) ∧
    (∀ e ∈ (main w env cl (State.start fs dr dm)).state.trace,
      e.isLogging = true ∧ e.isAbort = false ∧ e.isLoader = false ∧
      e.isConstruct = false ∧ e.isRegister = false ∧ e.isHandle = false ∧
      e.isSocketOp = false) ∧
    (main w env cl (State.start fs dr dm)).state.fs = fs ∧
    (main w env cl (State.start fs dr dm)).state.defaultRegistry = dr ∧
    (main w env cl (State.start fs dr dm)).state.defaultServeMux = dm := by
  unfold main
  revert hv
  generalize flagParse env cl = c
  intro hv
  have hrun : mainWith w c (State.start fs dr dm)
      = ⟨setupLogging w c (State.start fs dr dm), .returned⟩ := by
    simp [mainWith, hv]
  rw [hrun]
  refine ⟨rfl, rfl, ?_, ?_, ?_, ?_, ?_⟩
  · simp [setupLogging_eq, State.start]
  · intro e he
    simp only [setupLogging_eq, State.start, List.nil_append] at he
    have hl := setupLoggingEvents_isLogging w c e he
    have := isLogging_only e hl
    exact ⟨hl, this.2.2.2.2.2.1, this.1, this.2.1, this.2.2.1, this.2.2.2.1, this.2.2.2.2.1⟩
  · simp [setupLogging_eq, State.start]
  · simp [setupLogging_eq, State.start]
  · simp [setupLogging_eq, State.start]

/-- C8 at a concrete input: the version flag together with both `redis.addr` and `redis.file` returns with status 0. -/
theorem C8_version_flag_returns_at_once_witness :
    (main quietWorld noEnv
      { CommandLine.none with showVersion := some true, redisAddr := some "a:1",
                              redisFile := some "hosts.txt" }
      (State.start emptyFS [] ⟨[]⟩)).exit = .returned ∧
    (main quietWorld noEnv
      { CommandLine.none with showVersion := some true, redisAddr := some "a:1",
                              redisFile := some "hosts.txt" }
      (State.start emptyFS [] ⟨[]⟩)).exit.status = some 0 :=
  ⟨(C8_version_flag_returns_at_once quietWorld noEnv
      { CommandLine.none with showVersion := some true, redisAddr := some "a:1",
                              redisFile := some "hosts.txt" } emptyFS [] ⟨[]⟩ (by decide)).1,
    (C8_version_flag_returns_at_once quietWorld noEnv
      { CommandLine.none with showVersion := some true, redisAddr := some "a:1",
                              redisFile := some "hosts.txt" } emptyFS [] ⟨[]⟩ (by decide)).2.1⟩

theorem chosenSources_logging (w : World) (c : Config) :
    chosenSources (setupLoggingEvents w c) = [] := by
  unfold chosenSources
  rw [List.filterMap_eq_nil_iff]
  intro e he
  exact (isLogging_only e (setupLoggingEvents_isLogging w c e he)).2.2.2.2.2.2

theorem loadTargets_result (w : World) (c : Config) (s s' : State) :
    (loadTargets w c s).2 = (loadTargets w c s').2 := by
  unfold loadTargets
  split_ifs <;> rfl

/-- C2: for every address spec, file spec and discovery flag that do not
conflict, the switch of `main` calls the loader of the source that the
reference decision names (file, else discovery, else inline), and a run of
`main` with the version flag unset takes its targets from exactly that source.
With an empty file spec and the discovery flag unset the source is the inline
one, whether the address spec is empty or not; the selection raises no error:
the loader result is passed on and the collector factory is called. -/
theorem C2_source_selection_refines_reference (w : World) (env : Env) (cl : CommandLine)
    (fs : FS) (dr : List Collector) (dm : Mux)
    (hc : ¬ ((flagParse env cl).redisAddr ≠ "" ∧ (flagParse env cl).redisFile ≠ "")) :
    ∃ k, SourceSelector (flagParse env cl).redisAddr (flagParse env cl).redisFile
          (flagParse env cl).useCfBindings = some k ∧
      (k = (if (flagParse env cl).redisFile ≠ "" then TargetSpec.FileSpec
            else if (flagParse env cl).useCfBindings = true then TargetSpec.DiscoverySpec
            else TargetSpec.InlineSpec)) ∧
      (∀ s : State, chosenSources (loadTargets w (flagParse env cl) s).1.trace
          = chosenSources s.trace ++ [k]) ∧
      ((flagParse env cl).showVersion = false →
        chosenSources (main w env cl (State.start fs dr dm)).state.trace = [k]) ∧
      ((flagParse env cl).redisFile = "" → (flagParse env cl).useCfBindings = false →
        k = .InlineSpec ∧
        (∀ s : State, (loadTargets w (flagParse env cl) s).2
          = .ok (w.loadRedisArgs (flagParse env cl).redisAddr (flagParse env cl).redisPassword
              (flagParse env cl).redisAlias (flagParse env cl).separator)) ∧
        ((flagParse env cl).showVersion = false →
          Event.logFatal .configurationConflict ∉
            (main w env cl (State.start fs dr dm)).state.trace ∧
          ∃ host, Event.newRedisExporter host (flagParse env cl).namespace_
            (flagParse env cl).checkKeys ∈
              (main w env cl (State.start fs dr dm)).state.trace)) := by
  unfold main
  revert hc
  generalize flagParse env cl = c
  intro hc
  have hc' : ¬ (c.redisFile ≠ "" ∧ c.redisAddr ≠ "") := fun h => hc ⟨h.2, h.1⟩
  have hmain : ∀ k, SourceSelector c.redisAddr c.redisFile c.useCfBindings = some k →
      c.showVersion = false →
      chosenSources (mainWith w c (State.start fs dr dm)).state.trace = [k] := by
    intro k hk hv
    obtain ⟨ev, rest, _, hsrc, _, htr, hrest⟩ := mainWith_trace w c (State.start fs dr dm) hv hc'
    rw [htr]
    have hrest0 : chosenSources rest = [] := by
      unfold chosenSources
      rw [List.filterMap_eq_nil_iff]
      intro e he
      rcases hrest with ⟨e', _, rfl⟩ | ⟨t, rest', _, rfl, hr⟩
      · simp at he
        subst he
        rfl
      · rcases List.mem_cons.mp he with h | h
        · subst h
          rfl
        · rcases hr with ⟨e', _, rfl⟩ | ⟨_, hs⟩
          · simp at h
            subst h
            rfl
          · exact (isService_only _ (hs _ h)).2.2.1
    have hlog := chosenSources_logging w c
    unfold chosenSources at hlog hrest0 ⊢
    simp [State.start, List.filterMap_append, hlog, hrest0, hsrc, hk]
  have hswitch : ∀ k, SourceSelector c.redisAddr c.redisFile c.useCfBindings = some k →
      ∀ s : State, chosenSources (loadTargets w c s).1.trace = chosenSources s.trace ++ [k] := by
    intro k hk s
    obtain ⟨ev, hev, hsrc, _⟩ := loadTargets_trace w c s hc'
    rw [hev]
    unfold chosenSources
    simp [State.emit, List.filterMap_append, hsrc, hk]
  by_cases hf : c.redisFile = ""
  · by_cases hb : c.useCfBindings = true
    rotate_left
    · have hk : SourceSelector c.redisAddr c.redisFile c.useCfBindings = some .InlineSpec := by
        simp [SourceSelector, hf, hb]
      refine ⟨.InlineSpec, hk, by simp [hf, hb], hswitch _ hk, hmain _ hk, ?_⟩
      intro _ _
      refine ⟨rfl, ?_, ?_⟩
      · intro s
        simp [loadTargets, hf, hb]
      · intro hv
        obtain ⟨ev, rest, _, _, _, htr, hrest⟩ :=
          mainWith_trace w c (State.start fs dr dm) hv hc'
        constructor
        · exact conflict_not_logged w c fs dr dm hc'
        · rcases hrest with ⟨e, he, _⟩ | ⟨t, rest', _, rfl, _⟩
          · rw [loadTargets_result w c _ (State.start fs dr dm)] at he
            simp [loadTargets, hf, hb] at he
          · exact ⟨⟨t.1, t.2.1, t.2.2⟩, by rw [htr]; simp⟩
    · have hk : SourceSelector c.redisAddr c.redisFile c.useCfBindings = some .DiscoverySpec := by
        simp [SourceSelector, hf, hb]
      refine ⟨.DiscoverySpec, hk, by simp [hf, hb], hswitch _ hk, hmain _ hk, ?_⟩
      intro _ h
      rw [h] at hb
      cases hb
  · have ha : c.redisAddr = "" := by
      by_contra ha
      exact hc ⟨ha, hf⟩
    have hk : SourceSelector c.redisAddr c.redisFile c.useCfBindings = some .FileSpec := by
      simp [SourceSelector, hf, ha]
    refine ⟨.FileSpec, hk, by simp [hf], hswitch _ hk, hmain _ hk, ?_⟩
    intro h
    exact absurd h hf


/-- C2 at a concrete input: `redis.addr` alone is no conflict and selects the inline source. -/
theorem C2_source_selection_refines_reference_witness :
    ¬ ((flagParse noEnv { CommandLine.none with redisAddr := some "a:1" }).redisAddr ≠ "" ∧
        (flagParse noEnv { CommandLine.none with redisAddr := some "a:1" }).redisFile ≠ "") ∧
    chosenSources (main quietWorld noEnv { CommandLine.none with redisAddr := some "a:1" }
      (State.start emptyFS [] ⟨[]⟩)).state.trace = [TargetSpec.InlineSpec] := by
  refine ⟨by decide, ?_⟩
  obtain ⟨k, _, hk, _, hmain, _⟩ := C2_source_selection_refines_reference quietWorld noEnv
    { CommandLine.none with redisAddr := some "a:1" } emptyFS [] ⟨[]⟩ (by decide)
  have hk' : k = TargetSpec.InlineSpec := by
    rw [hk]
    decide
  rw [← hk']
  exact hmain (by decide)

theorem filter_logging (w : World) (c : Config) (p : Event → Bool)
    (hp : ∀ e, e.isLogging = true → p e = false) :
    (setupLoggingEvents w c).filter p = [] := by
  rw [List.filter_eq_nil_iff]
  intro e he
  simp [hp e (setupLoggingEvents_isLogging w c e he)]

/-- C9: with the version flag unset and no conflict, (a) when `LoadRedisFile`
returns an error the run is: logging, that one call, `log.Fatal` of the error
(exit status 1); (b) when the loader succeeds and `NewRedisExporter` returns
an error the run is: logging, one loader call, that one factory call,
`log.Fatal` of the error (exit status 1).  In both the failing step occurs
once, nothing is registered, no handler is installed, the socket path is
neither removed nor bound, and filesystem, default registry and default mux
are unchanged. -/
theorem C9_load_or_construct_failure_is_fatal (w : World) (env : Env) (cl : CommandLine)
    (fs : FS) (dr : List Collector) (dm : Mux)
    (hv : (flagParse env cl).showVersion = false)
    (hc : ¬ ((flagParse env cl).redisFile ≠ "" ∧ (flagParse env cl).redisAddr ≠ "")) :
    (∀ e, (flagParse env cl).redisFile ≠ "" →
      w.loadRedisFile (flagParse env cl).redisFile = .error e →
      (main w env cl (State.start fs dr dm)).exit = .fatal ∧
      (main w env cl (State.start fs dr dm)).exit.status = some 1 ∧
      (main w env cl (State.start fs dr dm)).state.trace =
        setupLoggingEvents w (flagParse env cl) ++
          [.loadRedisFile (flagParse env cl).redisFile, .logFatal (.error e)] ∧
      (main w env cl (State.start fs dr dm)).state.trace.filter Event.isLoader =
        [.loadRedisFile (flagParse env cl).redisFile] ∧
      (∀ x ∈ (main w env cl (State.start fs dr dm)).state.trace,
        x.isConstruct = false ∧ x.isRegister = false ∧ x.isHandle = false ∧
        x.isSocketOp = false) ∧
      (main w env cl (State.start fs dr dm)).state.fs = fs ∧
      (main w env cl (State.start fs dr dm)).state.defaultRegistry = dr ∧
      (main w env cl (State.start fs dr dm)).state.defaultServeMux = dm) ∧
    (∀ t e, (loadTargets w (flagParse env cl) (State.start fs dr dm)).2 = .ok t →
      w.newRedisExporterErr ⟨t.1, t.2.1, t.2.2⟩ (flagParse env cl).namespace_
        (flagParse env cl).checkKeys = some e →
      (main w env cl (State.start fs dr dm)).exit = .fatal ∧
      (main w env cl (State.start fs dr dm)).exit.status = some 1 ∧
      (∃ ev, ev.isLoader = true ∧
        (main w env cl (State.start fs dr dm)).state.trace =
          setupLoggingEvents w (flagParse env cl) ++
            [ev, .newRedisExporter ⟨t.1, t.2.1, t.2.2⟩ (flagParse env cl).namespace_
              (flagParse env cl).checkKeys, .logFatal (.error e)]) ∧
      (main w env cl (State.start fs dr dm)).state.trace.filter Event.isConstruct =
        [.newRedisExporter ⟨t.1, t.2.1, t.2.2⟩ (flagParse env cl).namespace_
          (flagParse env cl).checkKeys] ∧
      (∀ x ∈ (main w env cl (State.start fs dr dm)).state.trace,
        x.isRegister = false ∧ x.isHandle = false ∧ x.isSocketOp = false) ∧
      (main w env cl (State.start fs dr dm)).state.fs = fs ∧
      (main w env cl (State.start fs dr dm)).state.defaultRegistry = dr ∧
      (main w env cl (State.start fs dr dm)).state.defaultServeMux = dm) := by
  unfold main
  revert hv hc
  generalize flagParse env cl = c
  intro hv hc
  have hlogs : ∀ x ∈ setupLoggingEvents w c, x.isConstruct = false ∧ x.isRegister = false ∧
      x.isHandle = false ∧ x.isSocketOp = false := by
    intro x hx
    have := isLogging_only x (setupLoggingEvents_isLogging w c x hx)
    exact ⟨this.2.1, this.2.2.1, this.2.2.2.1, this.2.2.2.2.1⟩
  constructor
  · intro e hf he
    have ha : c.redisAddr = "" := by
      by_contra ha
      exact hc ⟨hf, ha⟩
    have hrun : mainWith w c (State.start fs dr dm) =
        ⟨((setupLogging w c (State.start fs dr dm)).emit (.loadRedisFile c.redisFile)).emit
          (.logFatal (.error e)), .fatal⟩ := by
      simp [mainWith, hv, ha, loadTargets, hf, he]
    rw [hrun]
    refine ⟨rfl, rfl, ?_, ?_, ?_, ?_, ?_, ?_⟩
    · simp [setupLogging_eq, State.emit, State.start]
    · simp [setupLogging_eq, State.emit, State.start, List.filter_append,
        filter_logging w c Event.isLoader (fun x hx => (isLogging_only x hx).1),
        Event.isLoader]
    · intro x hx
      simp only [setupLogging_eq, State.emit, State.start, List.nil_append,
        List.mem_append, List.mem_singleton] at hx
      rcases hx with (hx | rfl) | rfl
      · exact hlogs x hx
      · exact ⟨rfl, rfl, rfl, rfl⟩
      · exact ⟨rfl, rfl, rfl, rfl⟩
    · simp [setupLogging_eq, State.emit, State.start]
    · simp [setupLogging_eq, State.emit, State.start]
    · simp [setupLogging_eq, State.emit, State.start]
  · intro t e ht he
    obtain ⟨ev, hev, _, hld⟩ := loadTargets_trace w c (setupLogging w c (State.start fs dr dm)) hc
    have ht' : (loadTargets w c (setupLogging w c (State.start fs dr dm))).2 = .ok t := by
      rw [loadTargets_result w c _ (State.start fs dr dm)]
      exact ht
    have hrun : mainWith w c (State.start fs dr dm) =
        ⟨(((setupLogging w c (State.start fs dr dm)).emit ev).emit
          (.newRedisExporter ⟨t.1, t.2.1, t.2.2⟩ c.namespace_ c.checkKeys)).emit
          (.logFatal (.error e)), .fatal⟩ := by
      simp only [mainWith, hv, hc, ht', hev, construct, he]
      simp
    rw [hrun]
    have hload := isLoader_only ev hld
    refine ⟨rfl, rfl, ⟨ev, hld, ?_⟩, ?_, ?_, ?_, ?_, ?_⟩
    · simp [setupLogging_eq, State.emit, State.start]
    · have h1 : (Event.newRedisExporter ⟨t.1, t.2.1, t.2.2⟩ c.namespace_
          c.checkKeys).isConstruct = true := rfl
      have h2 : (Event.logFatal (.error e)).isConstruct = false := rfl
      simp [setupLogging_eq, State.emit, State.start, List.filter_append,
        filter_logging w c Event.isConstruct (fun x hx => (isLogging_only x hx).2.1),
        List.filter_cons, hload.1, h1, h2]
    · intro x hx
      simp only [setupLogging_eq, State.emit, State.start, List.nil_append,
        List.mem_append, List.mem_singleton] at hx
      rcases hx with ((hx | rfl) | rfl) | rfl
      · exact (hlogs x hx).2
      · exact ⟨hload.2.1, hload.2.2.1, hload.2.2.2.1⟩
      · exact ⟨rfl, rfl, rfl⟩
      · exact ⟨rfl, rfl, rfl⟩
    · simp [setupLogging_eq, State.emit, State.start]
    · simp [setupLogging_eq, State.emit, State.start]
    · simp [setupLogging_eq, State.emit, State.start]

/-- C9 at concrete inputs: a file loader that fails, and a collector factory that fails, both end fatally. -/
theorem C9_load_or_construct_failure_is_fatal_witness :
    (main { quietWorld with loadRedisFile := fun _ => .error "open hosts.txt: no such file" }
      noEnv { CommandLine.none with redisFile := some "hosts.txt" }
      (State.start emptyFS [] ⟨[]⟩)).exit = .fatal ∧
    (main { quietWorld with newRedisExporterErr := fun _ _ _ => some "bad target list" }
      noEnv { CommandLine.none with redisAddr := some "a:1" }
      (State.start emptyFS [] ⟨[]⟩)).exit = .fatal :=
  ⟨((C9_load_or_construct_failure_is_fatal
      { quietWorld with loadRedisFile := fun _ => .error "open hosts.txt: no such file" }
      noEnv { CommandLine.none with redisFile := some "hosts.txt" } emptyFS [] ⟨[]⟩
      (by decide) (by decide)).1 "open hosts.txt: no such file" (by decide) rfl).1,
    ((C9_load_or_construct_failure_is_fatal
      { quietWorld with newRedisExporterErr := fun _ _ _ => some "bad target list" }
      noEnv { CommandLine.none with redisAddr := some "a:1" } emptyFS [] ⟨[]⟩
      (by decide) (by decide)).2 (["a:1"], [""], [""]) "bad target list"
        rfl rfl).1⟩

/-! ## The configuration surface -/

/-- C6 (counterexample): in the environment where every variable is set to
`x` and with no flag given, the namespace option resolves to `redis`, not to
the value of any environment variable; so no variable is the environment
fallback of that option. -/
theorem C6_counterexample_namespace_ignores_environment :
    CommandLine.none.get .namespace_ = none ∧
    (flagParse (fun _ => some "x") CommandLine.none).get .namespace_ = .str "redis" ∧
    (flagParse (fun _ => some "x") CommandLine.none).get .namespace_ ≠ .str "x" ∧
    ¬ (∃ key : String, ∀ (env : Env) (cl : CommandLine) (v : String),
        cl.get .namespace_ = none → env key = some v →
        (flagParse env cl).get .namespace_ = .str v) := by
  refine ⟨rfl, rfl, by decide, ?_⟩
  rintro ⟨key, h⟩
  have := h (fun _ => some "x") CommandLine.none "x" rfl rfl
  revert this
  decide

/-- C6 (amended): for every option, a flag given on the command line fixes
the resolved value.  When the flag is not given: the four options `redis.addr`,
`redis.file`, `redis.password`, `redis.alias` (and only these) take the value
of their environment variable when it is set and the empty string otherwise;
every other option takes the constant default of its flag declaration,
whatever the environment.  `getEnv` returns the environment value whenever
the key is present, else the default. -/
theorem C6_flag_wins_then_environment_for_four (env : Env) (cl : CommandLine) (o : Opt) :
    (∀ v, cl.get o = some v → (flagParse env cl).get o = v) ∧
    (cl.get o = none → ∀ key v, o.envKey = some key → env key = some v →
      (flagParse env cl).get o = .str v) ∧
    (cl.get o = none → ∀ key, o.envKey = some key → env key = none →
      (flagParse env cl).get o = .str "") ∧
    (cl.get o = none → o.envKey = none → (flagParse env cl).get o = o.builtin) ∧
    (o.envKey ≠ none ↔ o ∈ [Opt.redisAddr, .redisFile, .redisPassword, .redisAlias]) ∧
    (Opt.redisAddr.envKey = some "REDIS_ADDR" ∧ Opt.redisFile.envKey = some "REDIS_FILE" ∧
      Opt.redisPassword.envKey = some "REDIS_PASSWORD" ∧
      Opt.redisAlias.envKey = some "REDIS_ALIAS") ∧
    (∀ key d v, env key = some v → getEnv env key d = v) ∧
    (∀ key d, env key = none → getEnv env key d = d) := by
  refine ⟨?_, ?_, ?_, ?_, ?_, ⟨rfl, rfl, rfl, rfl⟩, ?_, ?_⟩
  · intro v hv
    cases o <;> simp only [CommandLine.get, Option.map_eq_some'] at hv <;>
      obtain ⟨a, ha, rfl⟩ := hv <;> simp [flagParse, Config.get, ha]
  · intro hn key v hk hv
    cases o <;> simp only [Opt.envKey, Option.some.injEq] at hk <;> try cases hk
    all_goals
      simp only [CommandLine.get, Option.map_eq_none'] at hn
      simp [flagParse, Config.get, hn, getEnv, hv]
  · intro hn key hk hv
    cases o <;> simp only [Opt.envKey, Option.some.injEq] at hk <;> try cases hk
    all_goals
      simp only [CommandLine.get, Option.map_eq_none'] at hn
      simp [flagParse, Config.get, hn, getEnv, hv]
  · intro hn hk
    cases o <;> simp only [Opt.envKey] at hk <;> try cases hk
    all_goals
      simp only [CommandLine.get, Option.map_eq_none'] at hn
      simp [flagParse, Config.get, hn, Opt.builtin]
  · cases o <;> simp [Opt.envKey]
  · intro key d v hv
    simp [getEnv, hv]
  · intro key d hv
    simp [getEnv, hv]


/-! ## The inline parser -/

theorem padZip_length (A C L : List String) : (padZip A C L).length = A.length := by
  induction A generalizing C L with
  | nil => rfl
  | cons a as ih => simp [padZip, ih]

theorem padZip_getElem? (A C L : List String) (i : Nat) (hi : i < A.length) :
    (padZip A C L)[i]? = some ⟨A.getD i "", C.getD i "", L.getD i ""⟩ := by
  induction A generalizing C L i with
  | nil => simp at hi
  | cons a as ih =>
    cases i with
    | zero =>
      cases C <;> cases L <;> simp [padZip]
    | succ j =>
      have hj : j < as.length := by simpa using hi
      cases C <;> cases L <;> simp [padZip, ih _ _ j hj]

/-- The run of `main` calls the collector factory once, on the loaded lists. -/
theorem construct_once (w : World) (c : Config) (fs : FS) (dr : List Collector) (dm : Mux)
    (hv : c.showVersion = false) (hc : ¬ (c.redisFile ≠ "" ∧ c.redisAddr ≠ ""))
    (t : TargetLists) (ht : (loadTargets w c (State.start fs dr dm)).2 = .ok t) :
    (mainWith w c (State.start fs dr dm)).state.trace.filter Event.isConstruct =
      [.newRedisExporter ⟨t.1, t.2.1, t.2.2⟩ c.namespace_ c.checkKeys] := by
  obtain ⟨ev, rest, hev, _, _, htr, hrest⟩ := mainWith_trace w c (State.start fs dr dm) hv hc
  rw [loadTargets_result w c _ (State.start fs dr dm), ht] at hrest
  rcases hrest with ⟨e, he, _⟩ | ⟨t', rest', ht', rfl, hr⟩
  · cases he
  · injection ht' with ht'
    subst ht'
    have hrest' : rest'.filter Event.isConstruct = [] := by
      rw [List.filter_eq_nil_iff]
      intro x hx
      rcases hr with ⟨e, _, rfl⟩ | ⟨_, hs⟩
      · simp at hx
        subst hx
        simp [Event.isConstruct]
      · simp [(isService_only _ (hs _ hx)).2.1]
    have h1 : (Event.newRedisExporter ⟨t.1, t.2.1, t.2.2⟩ c.namespace_
        c.checkKeys).isConstruct = true := rfl
    rw [htr]
    simp [State.start, List.filter_append, List.filter_cons, h1, hrest',
      filter_logging w c Event.isConstruct (fun x hx => (isLogging_only x hx).2.1),
      (isLoader_only ev hev).1]


/-- C3 (counterexample): with the empty address string and separator `,`,
splitting gives one (empty) address, but the list handed to the collector
factory is empty. -/
theorem C3_counterexample_empty_addresses :
    quietWorld.loadRedisArgs = LoadRedisArgs ∧
    (flagParse noEnv CommandLine.none).redisAddr = "" ∧
    (flagParse noEnv CommandLine.none).separator = "," ∧
    (stringsSplit "" ",").length = 1 ∧
    (main quietWorld noEnv CommandLine.none (State.start emptyFS [] ⟨[]⟩)).state.trace.filter
      Event.isConstruct = [.newRedisExporter ⟨[], [], []⟩ "redis" ""] ∧
    (RedisHost.mk [] [] []).Addrs.length ≠ (stringsSplit "" ",").length := by
  refine ⟨rfl, rfl, rfl, by decide, by decide, by decide⟩

/-- C3 (amended): when `LoadRedisArgs` is the parser of the specification
and the inline source is selected, `main` calls the collector factory once,
with three lists.  For a non-empty address string each list has the length of
the split address string `A`, and at every index `i` below that length the
address is `A[i]`, the credential is `C[i]` when the split credential string
has one and empty otherwise, and the alias is `L[i]` when the split alias
string has one and empty otherwise.  For the empty address string the three
lists are empty. -/
theorem C3_inline_targets_are_padded (w : World) (env : Env) (cl : CommandLine)
    (fs : FS) (dr : List Collector) (dm : Mux)
    (hw : w.loadRedisArgs = LoadRedisArgs)
    (hv : (flagParse env cl).showVersion = false)
    (hf : (flagParse env cl).redisFile = "")
    (hb : (flagParse env cl).useCfBindings = false) :
    ∃ host : RedisHost,
      (main w env cl (State.start fs dr dm)).state.trace.filter Event.isConstruct =
        [.newRedisExporter host (flagParse env cl).namespace_ (flagParse env cl).checkKeys] ∧
      ((flagParse env cl).redisAddr ≠ "" →
        host.Addrs.length
          = (stringsSplit (flagParse env cl).redisAddr (flagParse env cl).separator).length ∧
        host.Passwords.length = host.Addrs.length ∧
        host.Aliases.length = host.Addrs.length ∧
        ∀ i, i < (stringsSplit (flagParse env cl).redisAddr
            (flagParse env cl).separator).length →
          host.Addrs[i]?
            = (stringsSplit (flagParse env cl).redisAddr (flagParse env cl).separator)[i]? ∧
          host.Passwords[i]? = some ((stringsSplit (flagParse env cl).redisPassword
            (flagParse env cl).separator)[i]?.getD "") ∧
          host.Aliases[i]? = some ((stringsSplit (flagParse env cl).redisAlias
            (flagParse env cl).separator)[i]?.getD "")) ∧
      ((flagParse env cl).redisAddr = "" → host = ⟨[], [], []⟩) := by
  unfold main
  revert hv hf hb
  generalize flagParse env cl = c
  intro hv hf hb
  have hc : ¬ (c.redisFile ≠ "" ∧ c.redisAddr ≠ "") := fun h => h.1 hf
  have ht : (loadTargets w c (State.start fs dr dm)).2
      = .ok (LoadRedisArgs c.redisAddr c.redisPassword c.redisAlias c.separator) := by
    simp [loadTargets, hf, hb, hw]
  refine ⟨⟨(LoadRedisArgs c.redisAddr c.redisPassword c.redisAlias c.separator).1,
    (LoadRedisArgs c.redisAddr c.redisPassword c.redisAlias c.separator).2.1,
    (LoadRedisArgs c.redisAddr c.redisPassword c.redisAlias c.separator).2.2⟩,
    construct_once w c fs dr dm hv hc _ ht, ?_, ?_⟩
  · intro ha
    simp only [LoadRedisArgs, ha, if_false, List.length_map, padZip_length, true_and]
    intro i hi
    simp only [List.getElem?_map, padZip_getElem? _ _ _ i hi, Option.map_some']
    refine ⟨?_, ?_, ?_⟩
    · simp [List.getD_eq_getElem?_getD, List.getElem?_eq_getElem hi]
    · simp [List.getD_eq_getElem?_getD]
    · simp [List.getD_eq_getElem?_getD]
  · intro ha
    simp [LoadRedisArgs, ha]

/-- C3 at the input of the specification: addresses `a,b,c`, credentials `p`, no alias, separator `,`. -/
theorem C3_inline_targets_are_padded_witness :
    ∃ host : RedisHost,
      (main quietWorld noEnv
        { CommandLine.none with redisAddr := some "a,b,c", redisPassword := some "p",
                                redisAlias := some "" }
        (State.start emptyFS [] ⟨[]⟩)).state.trace.filter Event.isConstruct =
        [.newRedisExporter host "redis" ""] ∧
      host.Addrs.length = 3 ∧ host.Passwords.length = 3 ∧ host.Aliases.length = 3 ∧
      (host.Addrs[0]? = some "a" ∧ host.Passwords[0]? = some "p" ∧ host.Aliases[0]? = some "") ∧
      (host.Addrs[1]? = some "b" ∧ host.Passwords[1]? = some "" ∧ host.Aliases[1]? = some "") ∧
      (host.Addrs[2]? = some "c" ∧ host.Passwords[2]? = some "" ∧ host.Aliases[2]? = some "") := by
  obtain ⟨host, hh, hlen, _⟩ := C3_inline_targets_are_padded quietWorld noEnv
    { CommandLine.none with redisAddr := some "a,b,c", redisPassword := some "p",
                            redisAlias := some "" } emptyFS [] ⟨[]⟩ rfl (by decide)
    (by decide) (by decide)
  obtain ⟨h1, h2, h3, h4⟩ := hlen (by decide)
  have hA : stringsSplit "a,b,c" "," = ["a", "b", "c"] := by decide
  have hC : stringsSplit "p" "," = ["p"] := by decide
  have hL : stringsSplit "" "," = [""] := by decide
  have h1' : host.Addrs.length = (stringsSplit "a,b,c" ",").length := h1
  have h4' : ∀ i, i < (stringsSplit "a,b,c" ",").length →
      host.Addrs[i]? = (stringsSplit "a,b,c" ",")[i]? ∧
      host.Passwords[i]? = some ((stringsSplit "p" ",")[i]?.getD "") ∧
      host.Aliases[i]? = some ((stringsSplit "" ",")[i]?.getD "") := h4
  rw [hA] at h1'
  rw [hA, hC, hL] at h4'
  refine ⟨host, hh, h1', by rw [h2, h1']; rfl, by rw [h3, h1']; rfl, ?_, ?_, ?_⟩
  · simpa using h4' 0 (by decide)
  · simpa using h4' 1 (by decide)
  · simpa using h4' 2 (by decide)

/-! ## Reaching the binding step -/

theorem loadTargets_withFs (w : World) (c : Config) (s : State) (fs' : FS) :
    loadTargets w c { s with fs := fs' } =
      ({ (loadTargets w c s).1 with fs := fs' }, (loadTargets w c s).2) := by
  unfold loadTargets
  split_ifs <;> rfl

theorem loadTargets_events (w : World) (c : Config) (s : State) :
    ∃ ev, ev.isLoader = true ∧ (loadTargets w c s).1 = s.emit ev := by
  unfold loadTargets
  split_ifs
  · exact ⟨.loadRedisFile c.redisFile, rfl, rfl⟩
  · exact ⟨.getCloudFoundryRedisBindings, rfl, rfl⟩
  · exact ⟨.loadRedisArgs c.redisAddr c.redisPassword c.redisAlias c.separator, rfl, rfl⟩

/-- Every run of `main` either ends without touching the socket, or comes to
the binding step with a mux that holds the metrics path alone; what it does
before does not depend on the filesystem. -/
theorem mainWith_reach (w : World) (c : Config) (s : State) :
    ∃ evs, (∀ e ∈ evs, e.isSocketOp = false) ∧
      ((∀ fs', (mainWith w c { s with fs := fs' }).state.trace = s.trace ++ evs ∧
          (mainWith w c { s with fs := fs' }).state.fs = fs' ∧
          (mainWith w c { s with fs := fs' }).exit ≠ .serving) ∨
        (∃ (h : Handler) (s' : State), (h = .promHandler ∨ ∃ reg, h = .promHandlerFor reg) ∧
          s'.trace = s.trace ++ evs ∧ Event.muxHandle c.metricPath h ∈ evs ∧
          ∀ fs', mainWith w c { s with fs := fs' }
            = bindAndServe w c ⟨[(c.metricPath, h)]⟩ { s' with fs := fs' })) := by
  have hlogs : ∀ e ∈ setupLoggingEvents w c, e.isSocketOp = false := fun e he =>
    (isLogging_only e (setupLoggingEvents_isLogging w c e he)).2.2.2.2.1
  by_cases hv : c.showVersion = true
  · refine ⟨setupLoggingEvents w c, hlogs, Or.inl ?_⟩
    intro fs'
    simp [mainWith, hv, setupLogging_eq]
  by_cases hc : c.redisFile ≠ "" ∧ c.redisAddr ≠ ""
  · refine ⟨setupLoggingEvents w c ++ [.logFatal .configurationConflict], ?_, Or.inl ?_⟩
    · intro e he
      rcases List.mem_append.mp he with he | he
      · exact hlogs e he
      · simp at he
        subst he
        rfl
    · intro fs'
      simp [mainWith, hv, hc, setupLogging_eq, State.emit]
  obtain ⟨ev, hev, hld⟩ := loadTargets_events w c (setupLogging w c s)
  cases hres : (loadTargets w c (setupLogging w c s)).2 with
  | error e =>
    refine ⟨setupLoggingEvents w c ++ [ev, .logFatal (.error e)], ?_, Or.inl ?_⟩
    · intro x hx
      rcases List.mem_append.mp hx with hx | hx
      · exact hlogs x hx
      · simp at hx
        rcases hx with rfl | rfl
        · exact (isLoader_only _ hev).2.2.2.1
        · rfl
    · intro fs'
      have h1 : setupLogging w c { s with fs := fs' }
          = { setupLogging w c s with fs := fs' } := by
        simp [setupLogging_eq]
      simp only [mainWith, hv, hc, h1, loadTargets_withFs, hres, hld]
      simp [State.emit, setupLogging_eq]
  | ok t =>
    have h1 : ∀ fs', setupLogging w c { s with fs := fs' }
        = { setupLogging w c s with fs := fs' } := by
      intro fs'
      simp [setupLogging_eq]
    have hcons : (Event.newRedisExporter ⟨t.1, t.2.1, t.2.2⟩ c.namespace_
        c.checkKeys).isSocketOp = false := rfl
    cases herr : w.newRedisExporterErr ⟨t.1, t.2.1, t.2.2⟩ c.namespace_ c.checkKeys with
    | some e =>
      refine ⟨setupLoggingEvents w c ++ [ev,
        .newRedisExporter ⟨t.1, t.2.1, t.2.2⟩ c.namespace_ c.checkKeys,
        .logFatal (.error e)], ?_, Or.inl ?_⟩
      · intro x hx
        rcases List.mem_append.mp hx with hx | hx
        · exact hlogs x hx
        · simp at hx
          rcases hx with rfl | rfl | rfl
          · exact (isLoader_only _ hev).2.2.2.1
          · rfl
          · rfl
      · intro fs'
        have h1' := h1 fs'
        simp only [mainWith, hv, hc, h1', loadTargets_withFs, hres, hld, construct, herr]
        simp [State.emit, setupLogging_eq]
    | none =>
      obtain ⟨evs, hgood, hcase⟩ := composeRegistry_reach w c t.1 t.2.2
        (.exporter ⟨t.1, t.2.1, t.2.2⟩ c.namespace_ c.checkKeys)
        (((setupLogging w c s).emit ev).emit
          (.newRedisExporter ⟨t.1, t.2.1, t.2.2⟩ c.namespace_ c.checkKeys))
      have hrun : ∀ fs', mainWith w c { s with fs := fs' } =
          composeRegistry w c t.1 t.2.2
            (.exporter ⟨t.1, t.2.1, t.2.2⟩ c.namespace_ c.checkKeys)
            { ((setupLogging w c s).emit ev).emit
                (.newRedisExporter ⟨t.1, t.2.1, t.2.2⟩ c.namespace_ c.checkKeys)
              with fs := fs' } := by
        intro fs'
        have h1' := h1 fs'
        simp only [mainWith, hv, hc, h1', loadTargets_withFs, hres, hld, construct, herr]
        simp [State.emit]
      have htr : (((setupLogging w c s).emit ev).emit
          (.newRedisExporter ⟨t.1, t.2.1, t.2.2⟩ c.namespace_ c.checkKeys)).trace
          = s.trace ++ (setupLoggingEvents w c ++ [ev,
            .newRedisExporter ⟨t.1, t.2.1, t.2.2⟩ c.namespace_ c.checkKeys]) := by
        simp [State.emit, setupLogging_eq]
      refine ⟨(setupLoggingEvents w c ++ [ev,
        .newRedisExporter ⟨t.1, t.2.1, t.2.2⟩ c.namespace_ c.checkKeys]) ++ evs, ?_, ?_⟩
      · intro x hx
        rcases List.mem_append.mp hx with hx | hx
        · rcases List.mem_append.mp hx with hx | hx
          · exact hlogs x hx
          · simp at hx
            rcases hx with rfl | rfl
            · exact (isLoader_only _ hev).2.2.2.1
            · rfl
        · exact (hgood x hx).1
      · rcases hcase with hl | ⟨h, s', hh, hs', hmem, hr⟩
        · left
          intro fs'
          rw [hrun fs']
          obtain ⟨a1, a2, a3⟩ := hl fs'
          refine ⟨?_, a2, ?_⟩
          · rw [a1, htr, List.append_assoc]
          · rw [a3]
            intro hx
            cases hx
        · right
          refine ⟨h, s', hh, ?_, List.mem_append_right _ hmem, ?_⟩
          · rw [hs', htr, List.append_assoc]
          · intro fs'
            rw [hrun fs']
            exact hr fs'


/-! ## The filesystem -/

theorem osRemove_static (fs : FS) (p : String) :
    (fs.osRemove p).1.removable = fs.removable ∧ (fs.osRemove p).1.bindable = fs.bindable := by
  unfold FS.osRemove
  split_ifs <;> exact ⟨rfl, rfl⟩

theorem osRemove_ok (fs : FS) (p : String) (he : fs.pathExists p = true)
    (hr : fs.removable p = true) :
    (fs.osRemove p).2 = none ∧ (fs.osRemove p).1.pathExists p = false := by
  unfold FS.osRemove
  simp only [he, hr, if_true]
  simp [FS.pathExists, List.any_eq_false]

theorem netListen_static (fs : FS) (p : String) :
    (fs.netListen p).1.removable = fs.removable ∧ (fs.netListen p).1.bindable = fs.bindable := by
  unfold FS.netListen
  split_ifs <;> exact ⟨rfl, rfl⟩

theorem closeListener_static (fs : FS) (p : String) :
    (fs.closeListener p).removable = fs.removable ∧
      (fs.closeListener p).bindable = fs.bindable := by
  unfold FS.closeListener
  split_ifs
  · exact ⟨rfl, rfl⟩
  · exact osRemove_static fs p

theorem netListen_bindable (fs : FS) (p : String) (h : (fs.netListen p).2 = none) :
    fs.bindable p = true := by
  unfold FS.netListen at h
  by_cases hb : fs.bindable p = true
  · exact hb
  · have hb' : fs.bindable p = false := by simpa using hb
    rw [hb'] at h
    by_cases ha : isAbstract p = true
    · simp [ha] at h
    · by_cases he : fs.pathExists p = true
      · simp [ha, he] at h
      · simp [ha, he] at h

theorem netListen_creates (fs : FS) (p : String) (ha : isAbstract p = false)
    (h : (fs.netListen p).2 = none) : (fs.netListen p).1.pathExists p = true := by
  unfold FS.netListen at h ⊢
  by_cases he : fs.pathExists p = true
  · simp [ha, he] at h
  · by_cases hb : fs.bindable p = true
    · simp only [ha, he, hb, if_true, if_false]
      simp [FS.pathExists]
    · simp [ha, he, hb] at h

theorem netListen_free (fs : FS) (p : String) (he : fs.pathExists p = false)
    (hb : fs.bindable p = true) : (fs.netListen p).2 = none := by
  unfold FS.netListen
  by_cases ha : isAbstract p = true
  · simp [ha, hb]
  · simp [ha, he, hb]

theorem osRemove_absent (fs : FS) (p : String) (he : fs.pathExists p = false) :
    (fs.osRemove p).1 = fs := by
  unfold FS.osRemove
  simp [he]


/-- The shape of every run: either no socket action at all, or the actions
before binding (none on the socket, the same for every filesystem), then the
removal, then the listener creation, then a panic or `Serve` on the mux that
holds the metrics path alone. -/
theorem main_bind_structure (w : World) (c : Config) (dr : List Collector) (dm : Mux) :
    (∀ fs, (∀ e ∈ (mainWith w c (State.start fs dr dm)).state.trace, e.isSocketOp = false) ∧
      (mainWith w c (State.start fs dr dm)).exit ≠ .serving) ∨
    (∃ (pre : List Event) (h : Handler), (h = .promHandler ∨ ∃ reg, h = .promHandlerFor reg) ∧
      (∀ e ∈ pre, e.isSocketOp = false) ∧ Event.muxHandle c.metricPath h ∈ pre ∧
      ∀ fs, (mainWith w c (State.start fs dr dm)).state.trace =
          pre ++ [.osRemove c.listenAddress (fs.osRemove c.listenAddress).2,
            .netListen c.listenAddress
              ((fs.osRemove c.listenAddress).1.netListen c.listenAddress).2] ++
          (match ((fs.osRemove c.listenAddress).1.netListen c.listenAddress).2 with
            | some e => [.goPanic e]
            | none => [.serve ⟨[(c.metricPath, h)]⟩ w.serveErr]) ∧
        (mainWith w c (State.start fs dr dm)).state.fs =
          (match ((fs.osRemove c.listenAddress).1.netListen c.listenAddress).2 with
            | some _ => ((fs.osRemove c.listenAddress).1.netListen c.listenAddress).1
            | none => match w.serveErr with
              | some _ => ((fs.osRemove c.listenAddress).1.netListen
                  c.listenAddress).1.closeListener c.listenAddress
              | none => ((fs.osRemove c.listenAddress).1.netListen c.listenAddress).1) ∧
        (mainWith w c (State.start fs dr dm)).exit =
          (match ((fs.osRemove c.listenAddress).1.netListen c.listenAddress).2 with
            | some _ => .panicked
            | none => match w.serveErr with
              | some _ => .returned
              | none => .serving)) := by
  obtain ⟨evs, hgood, hcase⟩ := mainWith_reach w c (State.start emptyFS dr dm)
  rcases hcase with hl | ⟨h, s', hh, hs', hmem, hr⟩
  · left
    intro fs
    obtain ⟨a1, _, a3⟩ := hl fs
    have hs : ({ State.start emptyFS dr dm with fs := fs } : State) = State.start fs dr dm := rfl
    rw [hs] at a1 a3
    refine ⟨?_, a3⟩
    intro e he
    rw [a1] at he
    exact hgood e (by simpa [State.start] using he)
  · right
    refine ⟨evs, h, hh, hgood, hmem, ?_⟩
    intro fs
    have hrun := hr fs
    have hs : ({ State.start emptyFS dr dm with fs := fs } : State) = State.start fs dr dm := rfl
    rw [hs] at hrun
    rw [hrun, bindAndServe_trace, bindAndServe_fs, bindAndServe_exit]
    refine ⟨?_, rfl, rfl⟩
    have : s'.trace = evs := by simpa [State.start] using hs'
    simp [this]

/-- The filesystem a run leaves permits what the starting one permits. -/
theorem main_fs_static (w : World) (c : Config) (fs : FS) (dr : List Collector) (dm : Mux) :
    (mainWith w c (State.start fs dr dm)).state.fs.removable = fs.removable ∧
      (mainWith w c (State.start fs dr dm)).state.fs.bindable = fs.bindable := by
  obtain ⟨evs, _, hcase⟩ := mainWith_reach w c (State.start emptyFS dr dm)
  have hs : ({ State.start emptyFS dr dm with fs := fs } : State) = State.start fs dr dm := rfl
  rcases hcase with hl | ⟨h, s', _, _, _, hr⟩
  · have := (hl fs).2.1
    rw [hs] at this
    rw [this]
    exact ⟨rfl, rfl⟩
  · have hrun := hr fs
    rw [hs] at hrun
    rw [hrun, bindAndServe_fs]
    have h1 := osRemove_static fs c.listenAddress
    have h2 := netListen_static (fs.osRemove c.listenAddress).1 c.listenAddress
    have h3 := closeListener_static
      ((fs.osRemove c.listenAddress).1.netListen c.listenAddress).1 c.listenAddress
    cases ((fs.osRemove c.listenAddress).1.netListen c.listenAddress).2 with
    | some e => exact ⟨h2.1.trans h1.1, h2.2.trans h1.2⟩
    | none =>
      cases w.serveErr with
      | some e => exact ⟨h3.1.trans (h2.1.trans h1.1), h3.2.trans (h2.2.trans h1.2)⟩
      | none => exact ⟨h2.1.trans h1.1, h2.2.trans h1.2⟩

/-- C10: in a run of `main` that acts on the socket at all, the trace is: actions
that do not touch the socket, then one removal of the configured socket path
with the result of `os.Remove` on the starting filesystem, then at once the
listener creation on the same path, whether or not the removal succeeded,
then either the panic on the listener error (exit status 2, no `Serve`) or
`Serve`; the removal is the only removal of the run.  And when a first run has
bound the socket at a path that names a file, and a second run starts from
the filesystem the first one left: if the first run left its socket file
behind and removing it is permitted, the second run removes it and binds the
socket again; if the first run left no file at the path (`Serve` returned and
closed the listener), the second run binds the socket again as well.  A first
run that is still serving, or was stopped while serving, has left its socket
file behind. -/
theorem C10_remove_once_then_listen (w : World) (env : Env) (cl : CommandLine)
    (fs : FS) (dr : List Collector) (dm : Mux)
    (hreach : ∃ e ∈ (main w env cl (State.start fs dr dm)).state.trace, e.isSocketOp = true) :
    (∃ pre post,
      (main w env cl (State.start fs dr dm)).state.trace =
        pre ++ [.osRemove (flagParse env cl).listenAddress
            (fs.osRemove (flagParse env cl).listenAddress).2,
          .netListen (flagParse env cl).listenAddress
            ((fs.osRemove (flagParse env cl).listenAddress).1.netListen
              (flagParse env cl).listenAddress).2] ++ post ∧
      (∀ e ∈ pre, e.isSocketOp = false) ∧
      (∀ err, ((fs.osRemove (flagParse env cl).listenAddress).1.netListen
            (flagParse env cl).listenAddress).2 = some err →
          post = [.goPanic err] ∧
          (main w env cl (State.start fs dr dm)).exit = .panicked ∧
          (main w env cl (State.start fs dr dm)).exit.status = some 2) ∧
      (((fs.osRemove (flagParse env cl).listenAddress).1.netListen
            (flagParse env cl).listenAddress).2 = none →
          ∃ mux, post = [.serve mux w.serveErr]) ∧
      (main w env cl (State.start fs dr dm)).state.trace.filter Event.isRemove =
        [.osRemove (flagParse env cl).listenAddress
          (fs.osRemove (flagParse env cl).listenAddress).2]) ∧
    (Event.netListen (flagParse env cl).listenAddress none ∈
        (main w env cl (State.start fs dr dm)).state.trace →
      isAbstract (flagParse env cl).listenAddress = false →
      ((main w env cl (State.start fs dr dm)).state.fs.pathExists
          (flagParse env cl).listenAddress = true →
        fs.removable (flagParse env cl).listenAddress = true →
        Event.osRemove (flagParse env cl).listenAddress none ∈
          (main w env cl (State.start (main w env cl (State.start fs dr dm)).state.fs
            dr dm)).state.trace ∧
        Event.netListen (flagParse env cl).listenAddress none ∈
          (main w env cl (State.start (main w env cl (State.start fs dr dm)).state.fs
            dr dm)).state.trace) ∧
      ((main w env cl (State.start fs dr dm)).state.fs.pathExists
          (flagParse env cl).listenAddress = false →
        Event.netListen (flagParse env cl).listenAddress none ∈
          (main w env cl (State.start (main w env cl (State.start fs dr dm)).state.fs
            dr dm)).state.trace) ∧
      ((main w env cl (State.start fs dr dm)).exit = .serving →
        (main w env cl (State.start fs dr dm)).state.fs.pathExists
          (flagParse env cl).listenAddress = true)) := by
  unfold main at hreach ⊢
  revert hreach
  generalize flagParse env cl = c
  intro hreach
  rcases main_bind_structure w c dr dm with hl | ⟨pre, h, _, hpre, _, hall⟩
  · obtain ⟨e, he, hs⟩ := hreach
    rw [(hl fs).1 e he] at hs
    cases hs
  obtain ⟨htr, hfs, hexit⟩ := hall fs
  have hprefilter : pre.filter Event.isRemove = [] := by
    rw [List.filter_eq_nil_iff]
    intro e he
    have := hpre e he
    cases e <;> simp_all [Event.isSocketOp, Event.isRemove]
  constructor
  · refine ⟨pre, _, htr, hpre, ?_, ?_, ?_⟩
    · intro err herr
      rw [hexit, herr]
      exact ⟨rfl, rfl, rfl⟩
    · intro hnone
      rw [hnone]
      exact ⟨_, rfl⟩
    · rw [htr]
      cases hl : ((fs.osRemove c.listenAddress).1.netListen c.listenAddress).2 <;>
        simp [List.filter_append, hprefilter, List.filter_cons, Event.isRemove]
  · intro hbound ha
    have hl1 : ((fs.osRemove c.listenAddress).1.netListen c.listenAddress).2 = none := by
      rw [htr] at hbound
      cases hl : ((fs.osRemove c.listenAddress).1.netListen c.listenAddress).2 with
      | none => rfl
      | some err =>
        rw [hl] at hbound
        simp only [List.mem_append, List.mem_cons, List.mem_singleton, List.mem_nil_iff,
          or_false] at hbound
        rcases hbound with (hb | hb | hb) | hb
        · have := hpre _ hb
          simp [Event.isSocketOp] at this
        · cases hb
        · cases hb
        · cases hb
    obtain ⟨hrem1, hbd1⟩ := main_fs_static w c fs dr dm
    have hbind : (mainWith w c (State.start fs dr dm)).state.fs.bindable c.listenAddress
        = true := by
      rw [hbd1, ← (osRemove_static fs c.listenAddress).2]
      exact netListen_bindable _ _ hl1
    obtain ⟨htr2, _, _⟩ := hall (mainWith w c (State.start fs dr dm)).state.fs
    refine ⟨?_, ?_, ?_⟩
    · intro hex hrm
      have hok := osRemove_ok _ c.listenAddress hex (by rw [hrem1]; exact hrm)
      have hst2 := osRemove_static (mainWith w c (State.start fs dr dm)).state.fs
        c.listenAddress
      have hfree := netListen_free _ c.listenAddress hok.2 (by rw [hst2.2]; exact hbind)
      rw [htr2, hok.1, hfree]
      simp
    · intro hex
      have hsame := osRemove_absent _ c.listenAddress hex
      have hfree : (((mainWith w c (State.start fs dr dm)).state.fs.osRemove
          c.listenAddress).1.netListen c.listenAddress).2 = none := by
        rw [hsame]
        exact netListen_free _ c.listenAddress hex hbind
      rw [htr2, hfree]
      simp
    · intro hserving
      rw [hexit, hl1] at hserving
      rw [hfs, hl1]
      cases hse : w.serveErr with
      | some e =>
        rw [hse] at hserving
        cases hserving
      | none => exact netListen_creates _ _ ha hl1

/-- C10 at a concrete input: a second run on the filesystem the first run left removes the socket file and binds again. -/
theorem C10_remove_once_then_listen_witness :
    Event.osRemove "/dev/shm/redis_exporter.sock" none ∈
      (main quietWorld noEnv CommandLine.none
        (State.start (main quietWorld noEnv CommandLine.none
          (State.start emptyFS [] ⟨[]⟩)).state.fs [] ⟨[]⟩)).state.trace ∧
    Event.netListen "/dev/shm/redis_exporter.sock" none ∈
      (main quietWorld noEnv CommandLine.none
        (State.start (main quietWorld noEnv CommandLine.none
          (State.start emptyFS [] ⟨[]⟩)).state.fs [] ⟨[]⟩)).state.trace :=
  ((C10_remove_once_then_listen quietWorld noEnv CommandLine.none emptyFS [] ⟨[]⟩
    (by decide)).2 (by decide) (by decide)).1 (by decide) rfl

/-! ## Registry composition -/

/-- What installing the metrics handler and everything after it adds to a
run: no registration, the metrics handler on the metrics path as the only
`mux.Handle`, and `Serve` on a mux that holds that entry alone. -/
theorem handleMetrics_summary (w : World) (c : Config) (a l : List String) (h : Handler)
    (s : State) :
    ∃ evs, (handleMetrics w c a l h s).state.trace = s.trace ++ evs ∧
      (∀ e ∈ evs, e.isRegister = false) ∧
      (∀ p h', Event.muxHandle p h' ∈ evs → p = c.metricPath ∧ h' = h) ∧
      (∀ mux err, Event.serve mux err ∈ evs → mux = ⟨[(c.metricPath, h)]⟩) ∧
      (handleMetrics w c a l h s).state.defaultRegistry = s.defaultRegistry := by
  obtain ⟨evs, hgood, hmux, hcase⟩ := handleMetrics_reach w c a l h s
  have hs : ({ s with fs := s.fs } : State) = s := rfl
  rcases hcase with hl | ⟨s', hs', hreg, _, hr⟩
  · obtain ⟨a1, _, _, a4⟩ := hl s.fs
    rw [hs] at a1 a4
    refine ⟨evs, a1, fun e he => (hgood e he).2.2, hmux, ?_, a4⟩
    intro mux err he
    have := (hgood _ he).1
    simp [Event.isSocketOp] at this
  · have hrun := hr s.fs
    rw [hs] at hrun
    refine ⟨evs ++ ([.osRemove c.listenAddress (s.fs.osRemove c.listenAddress).2,
        .netListen c.listenAddress
          ((s.fs.osRemove c.listenAddress).1.netListen c.listenAddress).2] ++
        (match ((s.fs.osRemove c.listenAddress).1.netListen c.listenAddress).2 with
          | some e => [.goPanic e]
          | none => [.serve ⟨[(c.metricPath, h)]⟩ w.serveErr])), ?_, ?_, ?_, ?_, ?_⟩
    · rw [hrun, bindAndServe_trace]
      simp [hs']
    · intro e he
      rcases List.mem_append.mp he with he | he
      · exact (hgood e he).2.2
      · cases hl : ((s.fs.osRemove c.listenAddress).1.netListen c.listenAddress).2 <;>
          simp [hl] at he <;> rcases he with rfl | rfl | rfl <;> rfl
    · intro p h' he
      rcases List.mem_append.mp he with he | he
      · exact hmux p h' he
      · cases hl : ((s.fs.osRemove c.listenAddress).1.netListen c.listenAddress).2 <;>
          simp [hl] at he
    · intro mux err he
      rcases List.mem_append.mp he with he | he
      · have := (hgood _ he).1
        simp [Event.isSocketOp] at this
      · cases hl : ((s.fs.osRemove c.listenAddress).1.netListen c.listenAddress).2 <;>
          simp [hl] at he
        exact he.1
    · rw [hrun, (bindAndServe_rest w c _ _).1]
      exact hreg

theorem handleMetrics_installs (w : World) (c : Config) (a l : List String) (h : Handler)
    (s : State) (hp : c.metricPath ≠ "") :
    Event.muxHandle c.metricPath h ∈ (handleMetrics w c a l h s).state.trace := by
  obtain ⟨evs, _, _, hcase⟩ := handleMetrics_reach w c a l h s
  have hs : ({ s with fs := s.fs } : State) = s := rfl
  rcases hcase with hl | ⟨s', hs', _, hmem, hr⟩
  · have hpanic := (hl s.fs).2.2.1
    have htr := (hl s.fs).1
    rw [hs] at hpanic htr
    rw [htr]
    have hm : (Mux.mk []).handle c.metricPath h = some ⟨[(c.metricPath, h)]⟩ := by
      simp [Mux.handle, hp]
    have hrun : handleMetrics w c a l h s = installRootAndServe w c a l ⟨[(c.metricPath, h)]⟩
        (s.emit (.muxHandle c.metricPath h)) := by
      simp [handleMetrics, hm]
    obtain ⟨evs2, _, hcase2⟩ := installRoot_reach w c a l ⟨[(c.metricPath, h)]⟩
      (s.emit (.muxHandle c.metricPath h))
    rw [hrun] at htr
    have hs2 : ({ s.emit (.muxHandle c.metricPath h) with fs := s.fs } : State)
        = s.emit (.muxHandle c.metricPath h) := rfl
    rcases hcase2 with hl2 | ⟨s2, hs2', _, hr2⟩
    · have h2 := (hl2 s.fs).1
      rw [hs2, htr] at h2
      have : evs = .muxHandle c.metricPath h :: evs2 := by
        simpa [State.emit] using h2
      rw [this]
      simp
    · have h2 := hr2 s.fs
      rw [hs2] at h2
      have h3 := congrArg (fun r => r.state.trace) h2
      simp only [htr, bindAndServe_trace] at h3
      have : Event.muxHandle c.metricPath h ∈ s.trace ++ evs := by
        rw [h3, hs2']
        simp [State.emit]
      exact this
  · have hrun := hr s.fs
    rw [hs] at hrun
    rw [hrun, bindAndServe_trace, hs']
    simp [hmem]

/-- The run of `main` up to the successful construction of the collector. -/
theorem mainWith_to_compose (w : World) (c : Config) (fs : FS) (dr : List Collector)
    (dm : Mux) (hv : c.showVersion = false) (hc : ¬ (c.redisFile ≠ "" ∧ c.redisAddr ≠ ""))
    (t : TargetLists) (ht : (loadTargets w c (State.start fs dr dm)).2 = .ok t)
    (herr : w.newRedisExporterErr ⟨t.1, t.2.1, t.2.2⟩ c.namespace_ c.checkKeys = none) :
    ∃ ev, ev.isLoader = true ∧
      mainWith w c (State.start fs dr dm) =
        composeRegistry w c t.1 t.2.2 (.exporter ⟨t.1, t.2.1, t.2.2⟩ c.namespace_ c.checkKeys)
          ⟨fs, dr, dm, setupLoggingEvents w c ++
            [ev, .newRedisExporter ⟨t.1, t.2.1, t.2.2⟩ c.namespace_ c.checkKeys]⟩ := by
  obtain ⟨ev, hev, hld⟩ := loadTargets_events w c (setupLogging w c (State.start fs dr dm))
  have ht' : (loadTargets w c (setupLogging w c (State.start fs dr dm))).2 = .ok t := by
    rw [loadTargets_result w c _ (State.start fs dr dm)]
    exact ht
  refine ⟨ev, hev, ?_⟩
  simp only [mainWith, hv, hc, ht', hld, construct, herr]
  simp [State.emit, setupLogging_eq, State.start]


theorem pre_compose_facts (w : World) (c : Config) (ev : Event) (hev : ev.isLoader = true)
    (x : Event) :
    (setupLoggingEvents w c ++ [ev, x]).filter Event.isRegister
        = [x].filter Event.isRegister ∧
      (∀ e ∈ setupLoggingEvents w c ++ [ev], e.isHandle = false ∧ e.isSocketOp = false) := by
  constructor
  · simp [List.filter_append, List.filter_cons, (isLoader_only ev hev).2.1,
      filter_logging w c Event.isRegister (fun x hx => (isLogging_only x hx).2.2.1)]
  · intro e he
    rcases List.mem_append.mp he with he | he
    · have := isLogging_only e (setupLoggingEvents_isLogging w c e he)
      exact ⟨this.2.2.2.1, this.2.2.2.2.1⟩
    · simp at he
      subst he
      exact ⟨(isLoader_only _ hev).2.2.1, (isLoader_only _ hev).2.2.2.1⟩

/-- C5 (counterexample): with `redis-only-metrics` set and a registry that
rejects the exporter collector, the run still serves, and the registry behind
the metrics path holds the build-info gauge alone. -/
theorem C5_counterexample_fresh_registry_without_collector :
    (flagParse noEnv
      { CommandLine.none with redisMetricsOnly := some true, redisAddr := some "a:1",
                              namespace_ := some "bad-ns" }).redisMetricsOnly = true ∧
    (main rejectingWorld
      noEnv { CommandLine.none with redisMetricsOnly := some true, redisAddr := some "a:1",
                                    namespace_ := some "bad-ns" }
      (State.start emptyFS [.ambient "go"] ⟨[]⟩)).exit = .serving ∧
    Event.serve ⟨[("/metrics", .promHandlerFor [.buildInfo "1.0" "abc" "2018-01-01" "go1.10" 1])]⟩
        none ∈
      (main rejectingWorld
        noEnv { CommandLine.none with redisMetricsOnly := some true, redisAddr := some "a:1",
                                      namespace_ := some "bad-ns" }
        (State.start emptyFS [.ambient "go"] ⟨[]⟩)).state.trace ∧
    Collector.exporter ⟨["a:1"], [""], [""]⟩ "bad-ns" "" ∉
      [Collector.buildInfo "1.0" "abc" "2018-01-01" "go1.10" 1] := by
  refine ⟨rfl, by decide, by decide, by decide⟩


/-- C5 (amended): in a run that comes to registry composition (version flag
unset, no conflict, targets loaded, collector built) and in which both
registrations succeed: with `redis-only-metrics` set, the registrations of the
run are one new registry and, in it, the exporter collector and the
build-info gauge; the handler installed on the metrics path, and the one
served, is the handler for the registry holding exactly these two; the
default registry is unchanged.  With the flag unset, both are registered in
the default registry, which then holds its previous collectors followed by
the two, and the handler installed on the metrics path, and the one served,
is the handler of the default registry.  With the flag unset and a
registration that fails, the run panics before any handler is installed. -/
theorem C5_registry_topologies (w : World) (env : Env) (cl : CommandLine)
    (fs : FS) (dr : List Collector) (dm : Mux) (t : TargetLists)
    (hv : (flagParse env cl).showVersion = false)
    (hc : ¬ ((flagParse env cl).redisFile ≠ "" ∧ (flagParse env cl).redisAddr ≠ ""))
    (ht : (loadTargets w (flagParse env cl) (State.start fs dr dm)).2 = .ok t)
    (herr : w.newRedisExporterErr ⟨t.1, t.2.1, t.2.2⟩ (flagParse env cl).namespace_
      (flagParse env cl).checkKeys = none) :
    ((flagParse env cl).redisMetricsOnly = true →
      w.registerErr [] (.exporter ⟨t.1, t.2.1, t.2.2⟩ (flagParse env cl).namespace_
        (flagParse env cl).checkKeys) = none →
      w.registerErr [.exporter ⟨t.1, t.2.1, t.2.2⟩ (flagParse env cl).namespace_
        (flagParse env cl).checkKeys] (buildInfoGauge w) = none →
      (main w env cl (State.start fs dr dm)).state.trace.filter Event.isRegister =
        [.newRegistry,
          .register .fresh (.exporter ⟨t.1, t.2.1, t.2.2⟩ (flagParse env cl).namespace_
            (flagParse env cl).checkKeys) none,
          .register .fresh (buildInfoGauge w) none] ∧
      (∀ p h, Event.muxHandle p h ∈ (main w env cl (State.start fs dr dm)).state.trace →
        p = (flagParse env cl).metricPath ∧
        h = .promHandlerFor [.exporter ⟨t.1, t.2.1, t.2.2⟩ (flagParse env cl).namespace_
          (flagParse env cl).checkKeys, buildInfoGauge w]) ∧
      ((flagParse env cl).metricPath ≠ "" →
        Event.muxHandle (flagParse env cl).metricPath
          (.promHandlerFor [.exporter ⟨t.1, t.2.1, t.2.2⟩ (flagParse env cl).namespace_
            (flagParse env cl).checkKeys, buildInfoGauge w]) ∈
          (main w env cl (State.start fs dr dm)).state.trace) ∧
      (∀ mux err, Event.serve mux err ∈ (main w env cl (State.start fs dr dm)).state.trace →
        mux = ⟨[((flagParse env cl).metricPath,
          .promHandlerFor [.exporter ⟨t.1, t.2.1, t.2.2⟩ (flagParse env cl).namespace_
            (flagParse env cl).checkKeys, buildInfoGauge w])]⟩) ∧
      (main w env cl (State.start fs dr dm)).state.defaultRegistry = dr) ∧
    ((flagParse env cl).redisMetricsOnly = false →
      w.registerErr dr (.exporter ⟨t.1, t.2.1, t.2.2⟩ (flagParse env cl).namespace_
        (flagParse env cl).checkKeys) = none →
      w.registerErr (dr ++ [.exporter ⟨t.1, t.2.1, t.2.2⟩ (flagParse env cl).namespace_
        (flagParse env cl).checkKeys]) (buildInfoGauge w) = none →
      (main w env cl (State.start fs dr dm)).state.trace.filter Event.isRegister =
        [.register .default (.exporter ⟨t.1, t.2.1, t.2.2⟩ (flagParse env cl).namespace_
            (flagParse env cl).checkKeys) none,
          .register .default (buildInfoGauge w) none] ∧
      (main w env cl (State.start fs dr dm)).state.defaultRegistry =
        dr ++ [.exporter ⟨t.1, t.2.1, t.2.2⟩ (flagParse env cl).namespace_
          (flagParse env cl).checkKeys, buildInfoGauge w] ∧
      (∀ x ∈ dr, x ∈ (main w env cl (State.start fs dr dm)).state.defaultRegistry) ∧
      (∀ p h, Event.muxHandle p h ∈ (main w env cl (State.start fs dr dm)).state.trace →
        p = (flagParse env cl).metricPath ∧ h = .promHandler) ∧
      ((flagParse env cl).metricPath ≠ "" →
        Event.muxHandle (flagParse env cl).metricPath .promHandler ∈
          (main w env cl (State.start fs dr dm)).state.trace) ∧
      (∀ mux err, Event.serve mux err ∈ (main w env cl (State.start fs dr dm)).state.trace →
        mux = ⟨[((flagParse env cl).metricPath, .promHandler)]⟩)) ∧
    ((flagParse env cl).redisMetricsOnly = false →
      ((∃ e, w.registerErr dr (.exporter ⟨t.1, t.2.1, t.2.2⟩ (flagParse env cl).namespace_
          (flagParse env cl).checkKeys) = some e) ∨
        (w.registerErr dr (.exporter ⟨t.1, t.2.1, t.2.2⟩ (flagParse env cl).namespace_
          (flagParse env cl).checkKeys) = none ∧
          ∃ e, w.registerErr (dr ++ [.exporter ⟨t.1, t.2.1, t.2.2⟩
            (flagParse env cl).namespace_ (flagParse env cl).checkKeys])
              (buildInfoGauge w) = some e)) →
      (main w env cl (State.start fs dr dm)).exit = .panicked ∧
      ∀ x ∈ (main w env cl (State.start fs dr dm)).state.trace,
        x.isHandle = false ∧ x.isSocketOp = false) := by
  unfold main
  revert hv hc ht herr
  generalize flagParse env cl = c
  intro hv hc ht herr
  obtain ⟨ev, hev, hrun⟩ := mainWith_to_compose w c fs dr dm hv hc t ht herr
  rw [hrun]
  have hpre := pre_compose_facts w c ev hev
    (.newRedisExporter ⟨t.1, t.2.1, t.2.2⟩ c.namespace_ c.checkKeys)
  have hpre1 : (setupLoggingEvents w c ++
      [ev, .newRedisExporter ⟨t.1, t.2.1, t.2.2⟩ c.namespace_ c.checkKeys]).filter
        Event.isRegister = [] := by
    rw [hpre.1]
    rfl
  have hpre2 : ∀ e ∈ setupLoggingEvents w c ++
      [ev, .newRedisExporter ⟨t.1, t.2.1, t.2.2⟩ c.namespace_ c.checkKeys],
      e.isHandle = false ∧ e.isSocketOp = false := by
    intro e he
    rcases List.mem_append.mp he with he | he
    · exact hpre.2 e (List.mem_append_left _ he)
    · simp at he
      rcases he with rfl | rfl
      · exact hpre.2 _ (List.mem_append_right _ (List.mem_singleton_self _))
      · exact ⟨rfl, rfl⟩
  refine ⟨?_, ?_, ?_⟩
  · intro hm h1 h2
    have hcomp : composeRegistry w c t.1 t.2.2
        (.exporter ⟨t.1, t.2.1, t.2.2⟩ c.namespace_ c.checkKeys)
        ⟨fs, dr, dm, setupLoggingEvents w c ++
          [ev, .newRedisExporter ⟨t.1, t.2.1, t.2.2⟩ c.namespace_ c.checkKeys]⟩ =
        handleMetrics w c t.1 t.2.2
          (.promHandlerFor [.exporter ⟨t.1, t.2.1, t.2.2⟩ c.namespace_ c.checkKeys,
            buildInfoGauge w])
          ⟨fs, dr, dm, (setupLoggingEvents w c ++
            [ev, .newRedisExporter ⟨t.1, t.2.1, t.2.2⟩ c.namespace_ c.checkKeys]) ++
            [.newRegistry,
              .register .fresh (.exporter ⟨t.1, t.2.1, t.2.2⟩ c.namespace_ c.checkKeys) none,
              .register .fresh (buildInfoGauge w) none]⟩ := by
      simp [composeRegistry, hm, register, h1, h2, State.emit]
    rw [hcomp]
    obtain ⟨evs, htr, hreg, hmux, hserve, hdr⟩ := handleMetrics_summary w c t.1 t.2.2
      (.promHandlerFor [.exporter ⟨t.1, t.2.1, t.2.2⟩ c.namespace_ c.checkKeys,
        buildInfoGauge w])
      ⟨fs, dr, dm, (setupLoggingEvents w c ++
        [ev, .newRedisExporter ⟨t.1, t.2.1, t.2.2⟩ c.namespace_ c.checkKeys]) ++
        [.newRegistry,
          .register .fresh (.exporter ⟨t.1, t.2.1, t.2.2⟩ c.namespace_ c.checkKeys) none,
          .register .fresh (buildInfoGauge w) none]⟩
    have hevs : evs.filter Event.isRegister = [] := by
      rw [List.filter_eq_nil_iff]
      intro e he
      simp [hreg e he]
    refine ⟨?_, ?_, ?_, ?_, hdr⟩
    · rw [htr, List.filter_append, List.filter_append, hpre1, hevs]
      rfl
    · intro p h hmem
      rw [htr] at hmem
      rcases List.mem_append.mp hmem with hmem | hmem
      · rcases List.mem_append.mp hmem with hmem | hmem
        · have := (hpre2 _ hmem).1
          simp [Event.isHandle] at this
        · simp at hmem
      · exact hmux p h hmem
    · intro hp
      exact handleMetrics_installs w c t.1 t.2.2 _ _ hp
    · intro mux err hmem
      rw [htr] at hmem
      rcases List.mem_append.mp hmem with hmem | hmem
      · rcases List.mem_append.mp hmem with hmem | hmem
        · have := (hpre2 _ hmem).2
          simp [Event.isSocketOp] at this
        · simp at hmem
      · exact hserve mux err hmem
  · intro hm h1 h2
    have hcomp : composeRegistry w c t.1 t.2.2
        (.exporter ⟨t.1, t.2.1, t.2.2⟩ c.namespace_ c.checkKeys)
        ⟨fs, dr, dm, setupLoggingEvents w c ++
          [ev, .newRedisExporter ⟨t.1, t.2.1, t.2.2⟩ c.namespace_ c.checkKeys]⟩ =
        handleMetrics w c t.1 t.2.2 .promHandler
          ⟨fs, dr ++ [.exporter ⟨t.1, t.2.1, t.2.2⟩ c.namespace_ c.checkKeys,
            buildInfoGauge w], dm, (setupLoggingEvents w c ++
            [ev, .newRedisExporter ⟨t.1, t.2.1, t.2.2⟩ c.namespace_ c.checkKeys]) ++
            [.register .default (.exporter ⟨t.1, t.2.1, t.2.2⟩ c.namespace_ c.checkKeys) none,
              .register .default (buildInfoGauge w) none]⟩ := by
      simp [composeRegistry, hm, register, h1, h2, State.emit]
    rw [hcomp]
    obtain ⟨evs, htr, hreg, hmux, hserve, hdr⟩ := handleMetrics_summary w c t.1 t.2.2
      .promHandler
      ⟨fs, dr ++ [.exporter ⟨t.1, t.2.1, t.2.2⟩ c.namespace_ c.checkKeys,
        buildInfoGauge w], dm, (setupLoggingEvents w c ++
        [ev, .newRedisExporter ⟨t.1, t.2.1, t.2.2⟩ c.namespace_ c.checkKeys]) ++
        [.register .default (.exporter ⟨t.1, t.2.1, t.2.2⟩ c.namespace_ c.checkKeys) none,
          .register .default (buildInfoGauge w) none]⟩
    have hevs : evs.filter Event.isRegister = [] := by
      rw [List.filter_eq_nil_iff]
      intro e he
      simp [hreg e he]
    refine ⟨?_, hdr, ?_, ?_, ?_, ?_⟩
    · rw [htr, List.filter_append, List.filter_append, hpre1, hevs]
      rfl
    · intro x hx
      rw [hdr]
      exact List.mem_append_left _ hx
    · intro p h hmem
      rw [htr] at hmem
      rcases List.mem_append.mp hmem with hmem | hmem
      · rcases List.mem_append.mp hmem with hmem | hmem
        · have := (hpre2 _ hmem).1
          simp [Event.isHandle] at this
        · simp at hmem
      · exact hmux p h hmem
    · intro hp
      exact handleMetrics_installs w c t.1 t.2.2 _ _ hp
    · intro mux err hmem
      rw [htr] at hmem
      rcases List.mem_append.mp hmem with hmem | hmem
      · rcases List.mem_append.mp hmem with hmem | hmem
        · have := (hpre2 _ hmem).2
          simp [Event.isSocketOp] at this
        · simp at hmem
      · exact hserve mux err hmem
  · intro hm hfail
    rcases hfail with ⟨e, h1⟩ | ⟨h1, e, h2⟩
    · have hcomp : composeRegistry w c t.1 t.2.2
          (.exporter ⟨t.1, t.2.1, t.2.2⟩ c.namespace_ c.checkKeys)
          ⟨fs, dr, dm, setupLoggingEvents w c ++
            [ev, .newRedisExporter ⟨t.1, t.2.1, t.2.2⟩ c.namespace_ c.checkKeys]⟩ =
          ⟨⟨fs, dr, dm, (setupLoggingEvents w c ++
            [ev, .newRedisExporter ⟨t.1, t.2.1, t.2.2⟩ c.namespace_ c.checkKeys]) ++
            [.register .default (.exporter ⟨t.1, t.2.1, t.2.2⟩ c.namespace_ c.checkKeys)
              (some e), .goPanic e]⟩, .panicked⟩ := by
        simp [composeRegistry, hm, register, h1, State.emit]
      rw [hcomp]
      refine ⟨rfl, ?_⟩
      intro x hx
      rcases List.mem_append.mp hx with hx | hx
      · exact hpre2 x hx
      · simp at hx
        rcases hx with rfl | rfl <;> exact ⟨rfl, rfl⟩
    · have hcomp : composeRegistry w c t.1 t.2.2
          (.exporter ⟨t.1, t.2.1, t.2.2⟩ c.namespace_ c.checkKeys)
          ⟨fs, dr, dm, setupLoggingEvents w c ++
            [ev, .newRedisExporter ⟨t.1, t.2.1, t.2.2⟩ c.namespace_ c.checkKeys]⟩ =
          ⟨⟨fs, dr ++ [.exporter ⟨t.1, t.2.1, t.2.2⟩ c.namespace_ c.checkKeys], dm,
            (setupLoggingEvents w c ++
            [ev, .newRedisExporter ⟨t.1, t.2.1, t.2.2⟩ c.namespace_ c.checkKeys]) ++
            [.register .default (.exporter ⟨t.1, t.2.1, t.2.2⟩ c.namespace_ c.checkKeys)
              none, .register .default (buildInfoGauge w) (some e), .goPanic e]⟩,
            .panicked⟩ := by
        simp [composeRegistry, hm, register, h1, h2, State.emit]
      rw [hcomp]
      refine ⟨rfl, ?_⟩
      intro x hx
      rcases List.mem_append.mp hx with hx | hx
      · exact hpre2 x hx
      · simp at hx
        rcases hx with rfl | rfl | rfl <;> exact ⟨rfl, rfl⟩


/-- C5 at concrete inputs: one run with `redis-only-metrics`, one without, on a default registry holding one ambient collector. -/
theorem C5_registry_topologies_witness :
    (main quietWorld noEnv
      { CommandLine.none with redisMetricsOnly := some true, redisAddr := some "a:1" }
      (State.start emptyFS [.ambient "go"] ⟨[]⟩)).state.defaultRegistry = [.ambient "go"] ∧
    Event.muxHandle "/metrics"
        (.promHandlerFor [.exporter ⟨["a:1"], [""], [""]⟩ "redis" "", buildInfoGauge quietWorld]) ∈
      (main quietWorld noEnv
        { CommandLine.none with redisMetricsOnly := some true, redisAddr := some "a:1" }
        (State.start emptyFS [.ambient "go"] ⟨[]⟩)).state.trace ∧
    (main quietWorld noEnv { CommandLine.none with redisAddr := some "a:1" }
      (State.start emptyFS [.ambient "go"] ⟨[]⟩)).state.defaultRegistry =
        [.ambient "go", .exporter ⟨["a:1"], [""], [""]⟩ "redis" "", buildInfoGauge quietWorld] :=
  ⟨((C5_registry_topologies quietWorld noEnv
      { CommandLine.none with redisMetricsOnly := some true, redisAddr := some "a:1" }
      emptyFS [.ambient "go"] ⟨[]⟩ (["a:1"], [""], [""]) (by decide) (by decide) rfl rfl).1
        rfl rfl rfl).2.2.2.2,
    ((C5_registry_topologies quietWorld noEnv
      { CommandLine.none with redisMetricsOnly := some true, redisAddr := some "a:1" }
      emptyFS [.ambient "go"] ⟨[]⟩ (["a:1"], [""], [""]) (by decide) (by decide) rfl rfl).1
        rfl rfl rfl).2.2.1 (by decide),
    ((C5_registry_topologies quietWorld noEnv { CommandLine.none with redisAddr := some "a:1" }
      emptyFS [.ambient "go"] ⟨[]⟩ (["a:1"], [""], [""]) (by decide) (by decide) rfl rfl).2.1
        rfl rfl rfl).2.1⟩

/-! ## Where the root page goes -/

theorem installRoot_root (w : World) (c : Config) (a l : List String) (mux : Mux) (s : State)
    (hs : ∀ m e, Event.serve m e ∉ s.trace) (m : Mux) (e : Option Err)
    (hmem : Event.serve m e ∈ (installRootAndServe w c a l mux s).state.trace) :
    Event.httpHandleFunc "/" (.page (rootPage w c)) ∈
        (installRootAndServe w c a l mux s).state.trace ∧
      ("/", Handler.page (rootPage w c)) ∈
        (installRootAndServe w c a l mux s).state.defaultServeMux.entries := by
  cases h : s.defaultServeMux.handle "/" (.page (rootPage w c)) with
  | none =>
    simp [installRootAndServe, h, State.emit] at hmem
    exact absurd hmem (hs m e)
  | some dm =>
    have hdm : ("/", Handler.page (rootPage w c)) ∈ dm.entries := by
      unfold Mux.handle at h
      split_ifs at h
      injection h with h
      rw [← h]
      simp
    have hrun : installRootAndServe w c a l mux s = bindAndServe w c mux
        { s with defaultServeMux := dm, trace := s.trace ++
          [.httpHandleFunc "/" (.page (rootPage w c)),
          .logPrintf "Providing metrics at %s%s" [[c.listenAddress], [c.metricPath]],
          .logPrintf "Connecting to redis hosts: %#v" [a],
          .logPrintf "Using alias: %#v" [l]] } := by
      simp [installRootAndServe, h, State.emit]
    rw [hrun, bindAndServe_trace, (bindAndServe_rest w c mux _).2]
    exact ⟨by simp, hdm⟩

theorem handleMetrics_root (w : World) (c : Config) (a l : List String) (h : Handler)
    (s : State) (hs : ∀ m e, Event.serve m e ∉ s.trace) (m : Mux) (e : Option Err)
    (hmem : Event.serve m e ∈ (handleMetrics w c a l h s).state.trace) :
    Event.httpHandleFunc "/" (.page (rootPage w c)) ∈
        (handleMetrics w c a l h s).state.trace ∧
      ("/", Handler.page (rootPage w c)) ∈
        (handleMetrics w c a l h s).state.defaultServeMux.entries := by
  cases hm : (Mux.mk []).handle c.metricPath h with
  | none =>
    simp [handleMetrics, hm, State.emit] at hmem
    exact absurd hmem (hs m e)
  | some mux =>
    have hrun : handleMetrics w c a l h s =
        installRootAndServe w c a l mux (s.emit (.muxHandle c.metricPath h)) := by
      simp [handleMetrics, hm]
    rw [hrun] at hmem ⊢
    refine installRoot_root w c a l mux _ ?_ m e hmem
    intro m' e' hx
    simp [State.emit] at hx
    exact hs m' e' hx

theorem composeRegistry_root (w : World) (c : Config) (a l : List String) (exp : Collector)
    (s : State) (hs : ∀ m e, Event.serve m e ∉ s.trace) (m : Mux) (e : Option Err)
    (hmem : Event.serve m e ∈ (composeRegistry w c a l exp s).state.trace) :
    Event.httpHandleFunc "/" (.page (rootPage w c)) ∈
        (composeRegistry w c a l exp s).state.trace ∧
      ("/", Handler.page (rootPage w c)) ∈
        (composeRegistry w c a l exp s).state.defaultServeMux.entries := by
  by_cases hm : c.redisMetricsOnly = true
  · have hrun : composeRegistry w c a l exp s = handleMetrics w c a l
        (.promHandlerFor (register w (register w [] exp).1 (buildInfoGauge w)).1)
        (((s.emit .newRegistry).emit (.register .fresh exp (register w [] exp).2)).emit
          (.register .fresh (buildInfoGauge w)
            (register w (register w [] exp).1 (buildInfoGauge w)).2)) := by
      simp [composeRegistry, hm]
    rw [hrun] at hmem ⊢
    refine handleMetrics_root w c a l _ _ ?_ m e hmem
    intro m' e' hx
    simp [State.emit] at hx
    exact hs m' e' hx
  · cases h1 : w.registerErr s.defaultRegistry exp with
    | some e1 =>
      simp [composeRegistry, hm, register, h1, State.emit] at hmem
      exact absurd hmem (hs m e)
    | none =>
      cases h2 : w.registerErr (s.defaultRegistry ++ [exp]) (buildInfoGauge w) with
      | some e2 =>
        simp [composeRegistry, hm, register, h1, h2, State.emit] at hmem
        exact absurd hmem (hs m e)
      | none =>
        have hrun : composeRegistry w c a l exp s = handleMetrics w c a l .promHandler
            ({ s with defaultRegistry := s.defaultRegistry ++ [exp, buildInfoGauge w],
                      trace := s.trace ++ [.register .default exp none,
                        .register .default (buildInfoGauge w) none] } : State) := by
          simp [composeRegistry, hm, register, h1, h2, State.emit]
        rw [hrun] at hmem ⊢
        refine handleMetrics_root w c a l _ _ ?_ m e hmem
        intro m' e' hx
        simp at hx
        exact hs m' e' hx


theorem mainWith_root (w : World) (c : Config) (fs : FS) (dr : List Collector) (dm : Mux)
    (m : Mux) (e : Option Err)
    (hmem : Event.serve m e ∈ (mainWith w c (State.start fs dr dm)).state.trace) :
    Event.httpHandleFunc "/" (.page (rootPage w c)) ∈
        (mainWith w c (State.start fs dr dm)).state.trace ∧
      ("/", Handler.page (rootPage w c)) ∈
        (mainWith w c (State.start fs dr dm)).state.defaultServeMux.entries := by
  have hlogs : ∀ m' e', Event.serve m' e' ∉ setupLoggingEvents w c := by
    intro m' e' hx
    have := setupLoggingEvents_isLogging w c _ hx
    simp [Event.isLogging] at this
  by_cases hv : c.showVersion = true
  · simp [mainWith, hv, setupLogging_eq, State.start] at hmem
    exact absurd hmem (hlogs m e)
  by_cases hc : c.redisFile ≠ "" ∧ c.redisAddr ≠ ""
  · simp [mainWith, hv, hc, setupLogging_eq, State.start, State.emit] at hmem
    exact absurd hmem (hlogs m e)
  have hv' : c.showVersion = false := by simpa using hv
  cases hres : (loadTargets w c (State.start fs dr dm)).2 with
  | error e1 =>
    obtain ⟨ev, rest, hev, _, _, htr, hrest⟩ := mainWith_trace w c (State.start fs dr dm) hv' hc
    rw [loadTargets_result w c _ (State.start fs dr dm), hres] at hrest
    rcases hrest with ⟨e2, _, rfl⟩ | ⟨t, _, ht, _⟩
    · rw [htr] at hmem
      simp [State.start] at hmem
      rcases hmem with hmem | hmem
      · exact absurd hmem (hlogs m e)
      · rw [← hmem] at hev
        simp [Event.isLoader] at hev
    · cases ht
  | ok t =>
    cases herr : w.newRedisExporterErr ⟨t.1, t.2.1, t.2.2⟩ c.namespace_ c.checkKeys with
    | some e1 =>
      obtain ⟨ev, rest, hev, _, _, htr, hrest⟩ :=
        mainWith_trace w c (State.start fs dr dm) hv' hc
      rw [loadTargets_result w c _ (State.start fs dr dm), hres] at hrest
      rcases hrest with ⟨e2, he2, _⟩ | ⟨t', rest', ht', rfl, hr⟩
      · cases he2
      · injection ht' with ht'
        subst ht'
        rw [herr] at hr
        rcases hr with ⟨e3, _, rfl⟩ | ⟨hx, _⟩
        · rw [htr] at hmem
          simp [State.start] at hmem
          rcases hmem with hmem | hmem
          · exact absurd hmem (hlogs m e)
          · rw [← hmem] at hev
            simp [Event.isLoader] at hev
        · cases hx
    | none =>
      obtain ⟨ev, hev, hrun⟩ := mainWith_to_compose w c fs dr dm hv' hc t hres herr
      rw [hrun] at hmem ⊢
      refine composeRegistry_root w c t.1 t.2.2 _ _ ?_ m e hmem
      intro m' e' hx
      simp at hx
      rcases hx with hx | hx
      · exact hlogs m' e' hx
      · rw [← hx] at hev
        simp [Event.isLoader] at hev

theorem startsWith_slash (l : List Char) (h1 : l.getLast? = some '/')
    (h2 : startsWith l ['/'] = true) : l = ['/'] := by
  cases l with
  | nil => simp at h1
  | cons x xs =>
    cases xs with
    | nil =>
      simp [startsWith] at h2
      rw [h2]
    | cons y ys => simp [startsWith] at h2

theorem lookup_root_single (p : String) (h : Handler) :
    (p = "/" → Mux.lookup ⟨[(p, h)]⟩ "/" = some h) ∧
      (p ≠ "/" → Mux.lookup ⟨[(p, h)]⟩ "/" = none) := by
  constructor
  · intro hp
    subst hp
    rfl
  · intro hp
    have hpm : patternMatches p "/" = false := by
      unfold patternMatches
      have h1 : (p == "/") = false := by simpa using hp
      rw [h1, Bool.false_or]
      by_contra hcon
      simp only [Bool.not_eq_false, Bool.and_eq_true, beq_iff_eq] at hcon
      apply hp
      apply String.ext
      exact startsWith_slash p.toList hcon.1 hcon.2
    simp [Mux.lookup, hpm]


/-- C4: the mux that `Serve` gets as the server's handler in any run holds one
entry, the metrics path with a handler of the metrics library, and no page;
the root page is registered by `http.HandleFunc`, on the default mux, which
is not the served one.  A request for `/` on the socket never gets the root
page: it gets the 404 reply unless the metrics path is `/` itself. -/
theorem C4_served_mux_lacks_root_page (w : World) (env : Env) (cl : CommandLine)
    (fs : FS) (dr : List Collector) (dm : Mux) (mux : Mux) (err : Option Err)
    (hserve : Event.serve mux err ∈ (main w env cl (State.start fs dr dm)).state.trace) :
    (∃ h, (h = .promHandler ∨ ∃ reg, h = .promHandlerFor reg) ∧
      mux = ⟨[((flagParse env cl).metricPath, h)]⟩) ∧
    (∀ body, mux.lookup "/" ≠ some (.page body)) ∧
    ((flagParse env cl).metricPath ≠ "/" → mux.lookup "/" = none) ∧
    Event.httpHandleFunc "/" (.page (rootPage w (flagParse env cl))) ∈
      (main w env cl (State.start fs dr dm)).state.trace ∧
    ("/", Handler.page (rootPage w (flagParse env cl))) ∈
      (main w env cl (State.start fs dr dm)).state.defaultServeMux.entries := by
  unfold main at hserve ⊢
  revert hserve
  generalize flagParse env cl = c
  intro hserve
  have hroot := mainWith_root w c fs dr dm mux err hserve
  rcases main_bind_structure w c dr dm with hl | ⟨pre, h, hh, hpre, _, hall⟩
  · have := (hl fs).1 _ hserve
    simp [Event.isSocketOp] at this
  obtain ⟨htr, _, _⟩ := hall fs
  have hmux : mux = ⟨[(c.metricPath, h)]⟩ := by
    rw [htr] at hserve
    rcases List.mem_append.mp hserve with hx | hx
    · rcases List.mem_append.mp hx with hx | hx
      · have := hpre _ hx
        simp [Event.isSocketOp] at this
      · simp at hx
    · cases hl : ((fs.osRemove c.listenAddress).1.netListen c.listenAddress).2 <;>
        simp [hl] at hx
      exact hx.1
  have hlook := lookup_root_single c.metricPath h
  refine ⟨⟨h, hh, hmux⟩, ?_, ?_, hroot.1, hroot.2⟩
  · intro body hb
    rw [hmux] at hb
    by_cases hp : c.metricPath = "/"
    · rw [hlook.1 hp] at hb
      injection hb with hb
      rcases hh with rfl | ⟨reg, rfl⟩ <;> cases hb
    · rw [hlook.2 hp] at hb
      cases hb
  · intro hp
    rw [hmux]
    exact hlook.2 hp

/-- C4 at the default configuration: the served mux answers `/` with 404 while the page sits in the default mux. -/
theorem C4_served_mux_lacks_root_page_witness :
    Event.serve ⟨[("/metrics", .promHandler)]⟩ none ∈
      (main quietWorld noEnv CommandLine.none (State.start emptyFS [] ⟨[]⟩)).state.trace ∧
    Mux.lookup ⟨[("/metrics", .promHandler)]⟩ "/" = none ∧
    ("/", Handler.page (rootPage quietWorld (flagParse noEnv CommandLine.none))) ∈
      (main quietWorld noEnv CommandLine.none
        (State.start emptyFS [] ⟨[]⟩)).state.defaultServeMux.entries :=
  ⟨by decide,
    (C4_served_mux_lacks_root_page quietWorld noEnv CommandLine.none emptyFS [] ⟨[]⟩
      ⟨[("/metrics", .promHandler)]⟩ none (by decide)).2.2.1 (by decide),
    (C4_served_mux_lacks_root_page quietWorld noEnv CommandLine.none emptyFS [] ⟨[]⟩
      ⟨[("/metrics", .promHandler)]⟩ none (by decide)).2.2.2.2⟩

/-- C7: a run with `redis-only-metrics` set in which registering the exporter
collector fails and `Serve` later returns an error: both errors appear in the
trace as results, neither is followed by `log.Fatal` or a panic, and `main`
returns with exit status 0. -/
theorem C7_registration_and_serve_errors_dropped :
    Event.register .fresh (.exporter ⟨["a:1"], [""], [""]⟩ "bad-ns" "")
        (some "descriptor is invalid") ∈
      (main stoppingWorld noEnv
        { CommandLine.none with redisMetricsOnly := some true, redisAddr := some "a:1",
                                namespace_ := some "bad-ns" }
        (State.start emptyFS [] ⟨[]⟩)).state.trace ∧
    Event.serve ⟨[("/metrics", .promHandlerFor [buildInfoGauge stoppingWorld])]⟩
        (some "accept unix: use of closed network connection") ∈
      (main stoppingWorld noEnv
        { CommandLine.none with redisMetricsOnly := some true, redisAddr := some "a:1",
                                namespace_ := some "bad-ns" }
        (State.start emptyFS [] ⟨[]⟩)).state.trace ∧
    (∀ x ∈ (main stoppingWorld noEnv
        { CommandLine.none with redisMetricsOnly := some true, redisAddr := some "a:1",
                                namespace_ := some "bad-ns" }
        (State.start emptyFS [] ⟨[]⟩)).state.trace, x.isAbort = false) ∧
    (main stoppingWorld noEnv
      { CommandLine.none with redisMetricsOnly := some true, redisAddr := some "a:1",
                              namespace_ := some "bad-ns" }
      (State.start emptyFS [] ⟨[]⟩)).exit = .returned ∧
    (main stoppingWorld noEnv
      { CommandLine.none with redisMetricsOnly := some true, redisAddr := some "a:1",
                              namespace_ := some "bad-ns" }
      (State.start emptyFS [] ⟨[]⟩)).exit.status = some 0 := by
  refine ⟨by decide, by decide, by decide, by decide, by decide⟩

end RedisExporter
